import Mathlib

/-!
AI Question Helper: question detection and answer reconciliation.

A shallow embedding of `src/content.js`:

* JavaScript strings, `trim`, `includes`, `split('\n')` and the regular expressions used by
  the script;
* a read-only DOM tree with the queries the script performs on it;
* `findQuestionTextNear`, `extractChoiceText`, `findQuestions`;
* the prompt built by `analyzeQuestion` and the reconciliation of the provider's completion
  with the question, as the list of annotation calls it makes.

Two library functions are not defined here. `String.prototype.toLowerCase` is the parameter
`toLowerCase` of every definition that calls it; concrete examples use `asciiLower`, which
agrees with it on ASCII text. `document.querySelector` is called by the script on a selector
it builds from the `id` of a radio: for an `id` that a CSS string holds unchanged the
selector is the attribute test it looks like and the query is defined here; for any other
`id` the outcome is that of the parameter `querySelector`. Every theorem holds for every
such pair of functions.
-/

namespace AIQuestionHelper

/-! ## Strings -/

/-- A JavaScript string, as its sequence of Unicode scalar values. -/
abbrev Str := List Char

/-- The `length` property: the number of UTF-16 code units. -/
def jsLength : Str → Nat
  | [] => 0
  | c :: s => (if c.toNat < 65536 then 1 else 2) + jsLength s

/-- White space and line terminators of ECMAScript: what `trim()` strips and what `\s`
matches. -/
def isWhiteSpace (c : Char) : Bool :=
  c.toNat == 9 || c.toNat == 10 || c.toNat == 11 || c.toNat == 12 || c.toNat == 13 ||
  c.toNat == 32 || c.toNat == 160 || c.toNat == 5760 ||
  (8192 ≤ c.toNat && c.toNat ≤ 8202) ||
  c.toNat == 8232 || c.toNat == 8233 || c.toNat == 8239 || c.toNat == 8287 ||
  c.toNat == 12288 || c.toNat == 65279

/-- The method `s.trim()`. -/
def trim (s : Str) : Str :=
  ((s.dropWhile isWhiteSpace).reverse.dropWhile isWhiteSpace).reverse

/-- The method `s.includes(t)`: `t` occurs in `s` as a contiguous substring. -/
def includes : Str → Str → Bool
  | [], t => t.isEmpty
  | c :: s, t => t.isPrefixOf (c :: s) || includes s t

/-- The method `s.split('\n')`. -/
def splitLines : Str → List Str
  | [] => [[]]
  | c :: s =>
    if c = '\n' then [] :: splitLines s
    else
      match splitLines s with
      | [] => [[c]]
      | l :: ls => (c :: l) :: ls

/-- The expression `s.split('\n')[0]`: the text before the first line feed. -/
def firstLine (s : Str) : Str :=
  (splitLines s).headD []

/-- The method `xs.join(sep)` on an array of strings. -/
def join (sep : Str) : List Str → Str
  | [] => []
  | [x] => x
  | x :: y :: xs => x ++ sep ++ join sep (y :: xs)

/-- Lower-casing of ASCII letters; `toLowerCase()` restricted to ASCII text. -/
def asciiLower (s : Str) : Str :=
  s.map Char.toLower

/-! ## Regular expressions

Each pattern of the script is written with backtracking combinators that try the
alternatives in the order the ECMAScript matcher does. -/

/-- A literal under the `i` flag, matched at the start of `s`: the rest of `s` after it.
For an ASCII literal, and without the `u` flag, a character matches a letter of the literal
exactly when it is that letter in upper or lower case. -/
def litI : Str → Str → Option Str
  | [], s => some s
  | _ :: _, [] => none
  | p :: ps, c :: s => if c.toLower = p.toLower then litI ps s else none

/-- A greedy `\s*` followed by `k`: take white space as long as there is some, and give
characters back one at a time while `k` fails. -/
def skipSpaces {α : Type} (k : Str → Option α) : Str → Option α
  | [] => k []
  | c :: s =>
    if isWhiteSpace c then
      match skipSpaces k s with
      | some r => some r
      | none => k (c :: s)
    else k (c :: s)

/-- The first start position, from the left, at which `f` matches. -/
def firstMatch {α : Type} (f : Str → Option α) : Str → Option α
  | [] => f []
  | c :: s =>
    match f (c :: s) with
    | some r => some r
    | none => firstMatch f s

/-- The group `(?:\n|Explanation:|$)` under the flags `is`, tested at the start of `s`. -/
def answerEnd (s : Str) : Bool :=
  match s with
  | [] => true
  | c :: _ => c == '\n' || (litI "Explanation:".toList s).isSome

/-- The lazy group `(.+?)` followed by `(?:\n|Explanation:|$)`: the shortest non-empty
prefix of `s` after which the closing group matches. -/
def lazyAnswer : Str → Option Str
  | [] => none
  | c :: s => if answerEnd s then some [c] else (lazyAnswer s).map (c :: ·)

/-- Group 1 of `/Answer:\s*(.+?)(?:\n|Explanation:|$)/is` matched at the start of `s`. -/
def answerAt (s : Str) : Option Str :=
  (litI "Answer:".toList s).bind (skipSpaces lazyAnswer)

/-- Group 1 of `aiResponse.match(/Answer:\s*(.+?)(?:\n|Explanation:|$)/is)`. -/
def answerMatch (aiResponse : Str) : Option Str :=
  firstMatch answerAt aiResponse

/-- Group 1 of `/Explanation:\s*(.+)/is` matched at the start of `s`: with the `s` flag the
greedy `(.+)` takes everything that is left, which has to be at least one character. -/
def explanationAt (s : Str) : Option Str :=
  (litI "Explanation:".toList s).bind
    (skipSpaces (fun r => if r.isEmpty then none else some r))

/-- Group 1 of `aiResponse.match(/Explanation:\s*(.+)/is)`. -/
def explanationMatch (aiResponse : Str) : Option Str :=
  firstMatch explanationAt aiResponse

/-- The test `/Explanation:/i.test(s)`. -/
def mentionsExplanation (s : Str) : Bool :=
  (firstMatch (litI "Explanation:".toList) s).isSome

/-! ## Questions -/

/-- A node of the document, named by the child indices that lead to it, innermost first. -/
abbrev Handle := List Nat

/-- An entry of `choices`: `{ element, text, inputElement }`. -/
structure Choice where
  element : Option Handle
  text : Str
  inputElement : Handle
deriving DecidableEq, Repr

/-- The `type` field of a question. -/
inductive QuestionType
  | multipleChoice
  | fillIn
deriving DecidableEq, Repr

/-- A question record pushed by `findQuestions`. -/
structure Question where
  element : Handle
  text : Str
  type : QuestionType
  choices : List Choice
  parentElement : Option Handle
  inputElement : Option Handle
deriving DecidableEq, Repr

/-! ## analyzeQuestion -/

/-- The prompt built in `analyzeQuestion`. -/
def prompt (q : Question) : Str :=
  if q.choices ≠ [] then
    q.text ++ "\n\nGroup of answer choices:\n".toList ++
      join "\n".toList (q.choices.map (·.text)) ++
      "\n\nRespond with only:\nAnswer: [the exact text of the correct answer choice]\nExplanation: [correct answer] because [brief reason]".toList
  else
    q.text ++ "\n\nAnswer: [your answer]\nExplanation: [brief reason]".toList

/-- The fields of the provider's reply that `analyzeQuestion` reads:
`data.choices?.[0]?.message?.content` and `...?.reasoning`, absent or a string. -/
structure Completion where
  content : Option Str
  reasoning : Option Str
deriving DecidableEq, Repr

/-- The expression `content || reasoning || ''`. -/
def completionText (data : Completion) : Str :=
  match data.content with
  | some (c :: s) => c :: s
  | _ =>
    match data.reasoning with
    | some (c :: s) => c :: s
    | _ => []

/-- A call made by `analyzeQuestion` into the annotation functions. -/
inductive Effect
  | addError (element : Handle) (message : Str)
  | highlightChoice (choice : Choice)
  | addExplanation (element : Handle) (explanation : Str)
  | highlightFillIn (element : Handle) (answer : Str) (inputElement : Handle)
deriving DecidableEq, Repr

/-- The message of the empty-response error. -/
def emptyResponseMessage : Str :=
  "⚠️ AI returned an empty response. Try a different model.".toList

/-- The message of the parse-failure error. -/
def parseFailureMessage (aiResponse : Str) : Str :=
  "⚠️ Could not parse answer from: \"".toList ++ aiResponse ++ "\"".toList

/-- The message of the unmatched-answer error. -/
def unmatchedAnswerMessage (answerText : Str) : Str :=
  "⚠️ Could not match answer: \"".toList ++ answerText ++ "\"".toList

/-- The first loop over `choices`: the first choice whose trimmed text is the answer. -/
def exactMatch (choices : List Choice) (answerText : Str) : Option Choice :=
  choices.find? (fun c => trim c.text == answerText)

/-- The second loop over `choices`: the first choice whose lower-cased trimmed text
includes the lower-cased answer or is included in it. -/
def partialMatch (toLowerCase : Str → Str) (choices : List Choice) (answerText : Str) :
    Option Choice :=
  choices.find? (fun c =>
    includes (toLowerCase (trim c.text)) (toLowerCase answerText) ||
    includes (toLowerCase answerText) (toLowerCase (trim c.text)))

/-- The value of `selectedChoice` after both loops. -/
def selectedChoice (toLowerCase : Str → Str) (choices : List Choice) (answerText : Str) :
    Option Choice :=
  match exactMatch choices answerText with
  | some c => some c
  | none => partialMatch toLowerCase choices answerText

/-- The part of `analyzeQuestion` that follows a successful provider call, as the list of
annotation calls it makes, in order. -/
def analyzeQuestion (toLowerCase : Str → Str) (q : Question) (data : Completion) :
    List Effect :=
  let aiResponse := trim (completionText data)
  if aiResponse = [] then
    [.addError q.element emptyResponseMessage]
  else if q.choices ≠ [] then
    match answerMatch aiResponse with
    | some group1 =>
      let answerText := trim group1
      match selectedChoice toLowerCase q.choices answerText with
      | some c =>
        [.highlightChoice c,
         .addExplanation q.element
           (match explanationMatch aiResponse with
            | some e => trim e
            | none => answerText ++ " because it is the correct answer.".toList)]
      | none => [.addError q.element (unmatchedAnswerMessage answerText)]
    | none => [.addError q.element (parseFailureMessage aiResponse)]
  else
    match q.inputElement with
    | some inputElement =>
      let answerText :=
        match answerMatch aiResponse with
        | some group1 => trim group1
        | none => firstLine aiResponse
      let explanation :=
        match explanationMatch aiResponse with
        | some e => trim e
        | none => []
      .highlightFillIn q.element answerText inputElement ::
        (if explanation ≠ [] then [.addExplanation q.element explanation] else [])
    | none => []

/-- A question with the given choice labels, for examples. -/
def mcQuestion (text : Str) (labels : List Str) : Question :=
  { element := [0], text := text, type := .multipleChoice,
    choices := labels.enum.map (fun p => ⟨some [p.1, 1], p.2, [0, p.1, 1]⟩),
    parentElement := some [], inputElement := none }


/-- The completion `"Answer: X\nExplanation: Y"`. -/
def answerExplanation (X Y : Str) : Str :=
  "Answer: ".toList ++ X ++ "\nExplanation: ".toList ++ Y

/-- A question whose first label runs over two lines and whose second label is the first
line of the first. -/
def twoLineLabelQuestion : Question :=
  mcQuestion "What is the capital of France?".toList ["Paris\nFrance".toList, "Paris".toList]

/-- A question with two one-line labels. -/
def capitalQuestion : Question :=
  mcQuestion "What is the capital of France?".toList ["Rome".toList, "Paris".toList]

/-- A fill-in question, for examples. -/
def fillInQuestion : Question :=
  { element := [0], text := "What is 6 times 7?".toList, type := .fillIn, choices := [],
    parentElement := some [], inputElement := some [1] }

/-! ## The document -/

/-- A node of the DOM tree: a text node, a comment, or an element with its local name (in
lower case, as the HTML parser leaves it), its attributes and its child nodes. -/
inductive Node
  | text (data : Str)
  | comment (data : Str)
  | element (tag : Str) (attrs : List (Str × Str)) (children : List Node)
deriving Repr

mutual
/-- The concatenated data of the text nodes below a node, in tree order. -/
def Node.descendantText : Node → Str
  | .text d => d
  | .comment _ => []
  | .element _ _ cs => descendantTextList cs
/-- The text below each node of a list, concatenated. -/
def descendantTextList : List Node → Str
  | [] => []
  | n :: ns => n.descendantText ++ descendantTextList ns
end

/-- The property `node.textContent`. -/
def Node.textContent : Node → Str
  | .comment d => d
  | n => n.descendantText

/-- The test `node.nodeType === Node.ELEMENT_NODE`. -/
def Node.isElement : Node → Bool
  | .element _ _ _ => true
  | _ => false

/-- The test `node.nodeType === Node.TEXT_NODE`. -/
def Node.isText : Node → Bool
  | .text _ => true
  | _ => false

/-- The property `node.childNodes`. -/
def Node.childNodes : Node → List Node
  | .element _ _ cs => cs
  | _ => []

/-- The local name of an element; empty for other nodes. -/
def Node.tag : Node → Str
  | .element t _ _ => t
  | _ => []

/-- The method `element.getAttribute(name)`. -/
def Node.getAttribute : Node → Str → Option Str
  | .element _ attrs _, name => attrs.lookup name
  | _, _ => none

/-- A string-valued property that reflects a content attribute, such as `name`, `id` and
`placeholder`: the value of the attribute, or the empty string. -/
def Node.reflect (n : Node) (name : Str) : Str :=
  (n.getAttribute name).getD []

/-- The property `radio.value`: the `value` attribute, or `"on"` when there is none. -/
def Node.value (n : Node) : Str :=
  (n.getAttribute "value".toList).getD "on".toList

/-- The node a handle names in the document. -/
def nodeAt (document : Node) : Handle → Option Node
  | [] => some document
  | i :: parent => (nodeAt document parent).bind (fun p => p.childNodes[i]?)

/-- The trimmed text of the node a handle names: `element.textContent.trim()`. -/
def trimmedText (document : Node) (h : Handle) : Str :=
  match nodeAt document h with
  | some n => trim n.textContent
  | none => []

/-- The property `node.parentElement`; the root element has none. -/
def parentElement : Handle → Option Handle
  | [] => none
  | _ :: parent => some parent

/-- The child nodes of the parent of the node a handle names. -/
def siblings (document : Node) : Handle → List Node
  | [] => []
  | _ :: parent =>
    match nodeAt document parent with
    | some p => p.childNodes
    | none => []

/-- The index of the last element among the first `i` nodes of a list. -/
def lastElementBefore (nodes : List Node) : Nat → Option Nat
  | 0 => none
  | i + 1 =>
    match nodes[i]? with
    | some (.element _ _ _) => some i
    | _ => lastElementBefore nodes i

/-- The property `node.previousElementSibling`. -/
def previousElementSibling (document : Node) : Handle → Option Handle
  | [] => none
  | i :: parent =>
    (lastElementBefore (siblings document (i :: parent)) i).map (· :: parent)

/-- The nodes that follow a node among the children of its parent: the chain of
`nextSibling`. -/
def followingSiblings (document : Node) : Handle → List Node
  | [] => []
  | i :: parent => (siblings document (i :: parent)).drop (i + 1)

/-- The method `element.closest('label')`: the nearest `label` among the element and its
ancestors. -/
def closestLabel (document : Node) : Handle → Option Handle
  | [] =>
    if (nodeAt document []).any (fun n => n.tag == "label".toList) then some [] else none
  | i :: parent =>
    if (nodeAt document (i :: parent)).any (fun n => n.tag == "label".toList) then
      some (i :: parent)
    else closestLabel document parent

mutual
/-- A node and the nodes below it with their handles, in tree order. -/
def Node.withDescendants (h : Handle) : Node → List (Handle × Node)
  | .text d => [(h, .text d)]
  | .comment d => [(h, .comment d)]
  | .element t a cs => (h, .element t a cs) :: withDescendantsList h 0 cs
/-- The nodes of a list of children, from index `i` on, and the nodes below them. -/
def withDescendantsList (h : Handle) (i : Nat) : List Node → List (Handle × Node)
  | [] => []
  | n :: ns => n.withDescendants (i :: h) ++ withDescendantsList h (i + 1) ns
end

/-- The method `document.querySelectorAll(selector)` for a selector given as a test on
nodes: the handles of the matching nodes in document order. -/
def querySelectorAll (document : Node) (selector : Node → Bool) : List Handle :=
  ((document.withDescendants []).filter (fun p => selector p.2)).map (·.1)

/-- The selector `input[type="radio"]`; in an HTML document the value of `type` is matched
without regard to ASCII case. -/
def isRadio (n : Node) : Bool :=
  n.tag == "input".toList &&
  (n.getAttribute "type".toList).any (fun v => asciiLower v == "radio".toList)

/-- The selector `input[type="text"], textarea`. -/
def isTextInput (n : Node) : Bool :=
  (n.tag == "input".toList &&
    (n.getAttribute "type".toList).any (fun v => asciiLower v == "text".toList)) ||
  n.tag == "textarea".toList

/-- The outcome of a call of `document.querySelector`: `none` when the call throws a
`SyntaxError`, else the element found, if any. -/
abbrev QueryResult := Option (Option Node)

/-- The text of the selector the script builds from the `id` of a radio: the template
literal with the `id` put between the quotation marks. -/
def labelForSelector (id : Str) : Str :=
  "label[for=\"".toList ++ id ++ "\"]".toList

/-- An `id` that a CSS string holds unchanged: it has no quotation mark, which would end
the string, no backslash, which would start an escape, no line feed, carriage return or
form feed, which would break the string, and no NUL, which the parser replaces. -/
def selectorSafe (id : Str) : Bool :=
  id.all (fun c => !(c.toNat == 34 || c.toNat == 92 || c.toNat == 10 || c.toNat == 13 ||
    c.toNat == 12 || c.toNat == 0))

/-- The query `document.querySelector(labelForSelector id)`. For a `selectorSafe` id the
selector is `label[for="id"]` and the result is the first `label` in document order whose
`for` attribute is `id`. For any other id the selector may be malformed, so that the call
throws, or may be another selector altogether: the result is what `querySelector` gives for
the text of the selector. -/
def labelFor (querySelector : Str → QueryResult) (document : Node) (id : Str) : QueryResult :=
  if selectorSafe id then
    some (((document.withDescendants []).find? (fun p =>
      p.2.tag == "label".toList && p.2.getAttribute "for".toList == some id)).map (·.2))
  else querySelector (labelForSelector id)

/-- A `querySelector` that throws on every selector. The examples pass it: it is called for
the id of `quoteIdPage` only, the other ids are `selectorSafe`. -/
def throwingQuerySelector : Str → QueryResult :=
  fun _ => none

/-! ## findQuestionTextNear -/

/-- The test `/^\d+[\).\:]/.test(text)`. -/
def startsEnumerated (text : Str) : Bool :=
  match text with
  | [] => false
  | c :: s =>
    c.isDigit &&
    match (s.dropWhile Char.isDigit) with
    | [] => false
    | d :: _ => d == ')' || d == '.' || d == ':'

/-- The test `/^[A-Z]/.test(text)`. -/
def startsUpper (text : Str) : Bool :=
  match text with
  | [] => false
  | c :: _ => c.isUpper

/-- The test `/^Question \d+/.test(text)`. -/
def startsQuestionNumber (text : Str) : Bool :=
  "Question ".toList.isPrefixOf text &&
  (text.drop 9).head?.any Char.isDigit

/-- The test `/^Question \d+/i.test(text)`. -/
def startsQuestionNumberI (text : Str) : Bool :=
  match litI "Question ".toList text with
  | some rest => rest.head?.any Char.isDigit
  | none => false

/-- The test on a preceding sibling of the input (Method 2). -/
def siblingLooksLikeQuestion (text : Str) : Bool :=
  decide (jsLength text > 10) && decide (jsLength text < 1000) &&
  (includes text "?".toList || startsEnumerated text || startsUpper text ||
    includes text "Question".toList)

/-- The test on the nodes around an ancestor of the input (Method 3). -/
def blockLooksLikeQuestion (text : Str) : Bool :=
  decide (jsLength text > 10) && decide (jsLength text < 1000) &&
  (includes text "?".toList || startsEnumerated text || startsQuestionNumber text)

/-- The loop of Method 2 from `sibling` on, with `fuel` rounds left of its 10. -/
def searchSiblings (document : Node) : Nat → Option Handle → Option Handle
  | 0, _ => none
  | _ + 1, none => none
  | fuel + 1, some sibling =>
    if siblingLooksLikeQuestion (trimmedText document sibling) then some sibling
    else searchSiblings document fuel (previousElementSibling document sibling)

/-- The inner loop of Method 3 over the preceding siblings of an ancestor, with `fuel`
rounds left of its 5. -/
def searchParentSiblings (document : Node) : Nat → Option Handle → Option Handle
  | 0, _ => none
  | _ + 1, none => none
  | fuel + 1, some parentSibling =>
    if blockLooksLikeQuestion (trimmedText document parentSibling) then some parentSibling
    else searchParentSiblings document fuel (previousElementSibling document parentSibling)

/-- The loop of Method 3 over the child nodes of an ancestor, given as the list of the
handles that are left. -/
def searchChildren (document : Node) (inputElement : Handle) : List Handle → Option Handle
  | [] => none
  | child :: rest =>
    if (nodeAt document child).any Node.isElement && child ≠ inputElement &&
        some child ≠ parentElement inputElement &&
        blockLooksLikeQuestion (trimmedText document child) then
      some child
    else searchChildren document inputElement rest

/-- The handles of the child nodes of the node a handle names. -/
def childHandles (document : Node) (h : Handle) : List Handle :=
  match nodeAt document h with
  | some n => (List.range n.childNodes.length).map (· :: h)
  | none => []

/-- The outer loop of Method 3 from `parent` on, with `fuel` rounds left of its 5. -/
def searchAncestors (document : Node) (inputElement : Handle) :
    Nat → Option Handle → Option Handle
  | 0, _ => none
  | _ + 1, none => none
  | fuel + 1, some parent =>
    match searchParentSiblings document 5 (previousElementSibling document parent) with
    | some found => some found
    | none =>
      match searchChildren document inputElement (childHandles document parent) with
      | some found => some found
      | none => searchAncestors document inputElement fuel (parentElement parent)

/-- The function `findQuestionTextNear(inputElement)`. -/
def findQuestionTextNear (document : Node) (inputElement : Handle) : Option Handle :=
  match (closestLabel document inputElement).filter
      (fun label => decide (jsLength (trimmedText document label) > 10)) with
  | some label => some label
  | none =>
    match searchSiblings document 10 (previousElementSibling document inputElement) with
    | some sibling => some sibling
    | none => searchAncestors document inputElement 5 (parentElement inputElement)

/-! ## extractChoiceText -/

/-- The `while` loop of Method 3 over the text nodes that follow the radio: the first
non-empty trimmed text, or the empty string if another kind of node comes first. -/
def nextTextSiblingText : List Node → Str
  | .text d :: rest => if trim d ≠ [] then trim d else nextTextSiblingText rest
  | _ => []

/-- The trimmed text of `radio.nextElementSibling`, or the empty string. -/
def nextElementSiblingText : List Node → Str
  | [] => []
  | .element t a cs :: _ => trim (Node.element t a cs).textContent
  | _ :: rest => nextElementSiblingText rest

/-- The `directText` of Method 4: the trimmed text nodes among the children of the parent,
joined by spaces and trimmed. -/
def directText (parent : Node) : Str :=
  trim (join " ".toList ((parent.childNodes.filter Node.isText).map
    (fun node => trim node.textContent)))

/-- The function `extractChoiceText(radio, questionText)`; `none` when the call of
`document.querySelector` in Method 2 throws. The names `labelText₁` to `labelText₄` are the
values of `labelText` after Methods 1 to 4. -/
def extractChoiceText (querySelector : Str → QueryResult) (document : Node) (radio : Handle)
    (questionText : Str) : Option Str :=
  let id := ((nodeAt document radio).map (·.reflect "id".toList)).getD []
  let value := ((nodeAt document radio).map (·.value)).getD []
  let labelText₁ : Str :=
    match closestLabel document radio with
    | some parentLabel => trimmedText document parentLabel
    | none => []
  match (if labelText₁ = [] ∧ id ≠ [] then labelFor querySelector document id
      else some none) with
  | none => none
  | some forLabel =>
    let labelText₂ : Str :=
      match forLabel with
      | some l => trim l.textContent
      | none => labelText₁
    let labelText₃ : Str :=
      if labelText₂ = [] then
        if nextTextSiblingText (followingSiblings document radio) ≠ [] then
          nextTextSiblingText (followingSiblings document radio)
        else nextElementSiblingText (followingSiblings document radio)
      else labelText₂
    let labelText₄ : Str :=
      if labelText₃ = [] ∨ labelText₃ = "on".toList then
        match (parentElement radio).bind (nodeAt document) with
        | some parent =>
          if directText parent ≠ [] ∧ directText parent ≠ "on".toList then directText parent
          else if trim parent.textContent ≠ [] ∧ trim parent.textContent ≠ "on".toList ∧
              trim parent.textContent ≠ questionText then
            trim parent.textContent
          else labelText₃
        | none => labelText₃
      else labelText₃
    some (if labelText₄ = [] ∨ labelText₄ = "on".toList then value else labelText₄)

/-! ## findQuestions -/

/-- The property names every object inherits from `Object.prototype`. -/
def objectPrototypeKeys : List Str :=
  ["constructor".toList, "__defineGetter__".toList, "__defineSetter__".toList,
   "hasOwnProperty".toList, "__lookupGetter__".toList, "__lookupSetter__".toList,
   "isPrototypeOf".toList, "propertyIsEnumerable".toList, "toString".toList,
   "valueOf".toList, "__proto__".toList, "toLocaleString".toList]

/-- The own properties of `radioGroups`, in the order of their creation. -/
abbrev RadioGroups := List (Str × List Handle)

/-- The statement `radioGroups[name].push(radio)`, after the array has been created if
there was none. -/
def pushRadio : RadioGroups → Str → Handle → RadioGroups
  | [], name, radio => [(name, [radio])]
  | (k, radios) :: rest, name, radio =>
    if k = name then (k, radios ++ [radio]) :: rest
    else (k, radios) :: pushRadio rest name radio

/-- The loop that groups the radios by name. A radio without a name is skipped. For a name
that `Object.prototype` defines, `radioGroups[name]` is the inherited value, no array is
created and the call of `push` throws a `TypeError`: the result is `none`. -/
def groupRadios (document : Node) : RadioGroups → List Handle → Option RadioGroups
  | groups, [] => some groups
  | groups, radio :: rest =>
    let name := ((nodeAt document radio).map (·.reflect "name".toList)).getD []
    if name = [] then groupRadios document groups rest
    else if name ∈ objectPrototypeKeys then none
    else groupRadios document (pushRadio groups name radio) rest

/-- The array index a property name denotes, if any: a canonical decimal numeral below
`2 ^ 32 - 1`. -/
def arrayIndex (name : Str) : Option Nat :=
  if name ≠ [] ∧ name.all Char.isDigit ∧ (name = "0".toList ∨ name.head? ≠ some '0') then
    let n := name.foldl (fun acc c => 10 * acc + (c.toNat - 48)) 0
    if n < 4294967295 then some n else none
  else none

/-- The expression `Object.keys(radioGroups)`: the array indices in ascending order, then
the other names in the order of their creation. -/
def objectKeys (groups : RadioGroups) : List Str :=
  ((groups.filterMap (fun g => (arrayIndex g.1).map (fun n => (n, g.1)))).insertionSort
      (fun a b => a.1 ≤ b.1)).map (·.2) ++
    (groups.filter (fun g => (arrayIndex g.1).isNone)).map (·.1)

/-- The local state of `findQuestions`. -/
structure ScanState where
  questions : List Question
  seenQuestionTexts : List Str
  processedRadioGroups : List Str
deriving Repr

/-- The choice built for one radio of a group; `none` when `extractChoiceText` throws. -/
def makeChoice (querySelector : Str → QueryResult) (document : Node) (questionText : Str)
    (radio : Handle) : Option Choice :=
  (extractChoiceText querySelector document radio questionText).map (fun labelText =>
    { element := (closestLabel document radio).orElse (fun _ => parentElement radio),
      text := labelText,
      inputElement := radio })

/-- The call `radios.map(radio => ...)` that builds the choices, radio by radio; `none`
when `extractChoiceText` throws for one of them. -/
def makeChoices (querySelector : Str → QueryResult) (document : Node) (questionText : Str) :
    List Handle → Option (List Choice)
  | [] => some []
  | radio :: rest =>
    match makeChoice querySelector document questionText radio with
    | none => none
    | some c => (makeChoices querySelector document questionText rest).map (c :: ·)

/-- The test `!c.text || c.text === 'on' || c.text === ''`. -/
def invalidChoice (c : Choice) : Bool :=
  c.text == [] || c.text == "on".toList || c.text == []

/-- The body of the loop over `Object.keys(radioGroups)`; `none` when it throws. -/
def processGroup (querySelector : Str → QueryResult) (document : Node) (groups : RadioGroups)
    (st : ScanState) (groupName : Str) : Option ScanState :=
  let radios := (groups.lookup groupName).getD []
  if radios.length < 2 then some st
  else if groupName ∈ st.processedRadioGroups then some st
  else
    let st := { st with processedRadioGroups := groupName :: st.processedRadioGroups }
    match radios.head? with
    | none => some st
    | some firstRadio =>
      match findQuestionTextNear document firstRadio with
      | none => some st
      | some questionElement =>
        let questionText := trimmedText document questionElement
        if questionText ∈ st.seenQuestionTexts then some st
        else if jsLength questionText < 10 ∨ jsLength questionText > 1000 then some st
        else
          let st := { st with seenQuestionTexts := questionText :: st.seenQuestionTexts }
          match makeChoices querySelector document questionText radios with
          | none => none
          | some choices =>
            if choices.all invalidChoice then some st
            else
              some { st with questions := st.questions ++
                [{ element := questionElement, text := questionText, type := .multipleChoice,
                   choices := choices, parentElement := parentElement questionElement,
                   inputElement := none }] }

/-- The test that makes the loop over the text inputs skip a control. -/
def skippedInput (toLowerCase : Str → Str) (input : Node) : Bool :=
  includes (toLowerCase (input.reflect "placeholder".toList)) "search".toList ||
  includes (toLowerCase (input.reflect "placeholder".toList)) "email".toList ||
  includes (toLowerCase (input.reflect "placeholder".toList)) "name".toList ||
  includes (toLowerCase (input.reflect "name".toList)) "search".toList

/-- The value of `looksLikeQuestion` in the loop over the text inputs. -/
def looksLikeQuestion (questionText : Str) : Bool :=
  includes questionText "?".toList || includes questionText "___".toList ||
  startsEnumerated questionText || startsQuestionNumberI questionText

/-- The body of the loop over the text inputs. -/
def processInput (toLowerCase : Str → Str) (document : Node) (st : ScanState)
    (input : Handle) : ScanState :=
  if (nodeAt document input).any (skippedInput toLowerCase) then st
  else
    match findQuestionTextNear document input with
    | none => st
    | some questionElement =>
      let questionText := trimmedText document questionElement
      if questionText ∈ st.seenQuestionTexts then st
      else if !looksLikeQuestion questionText ∨ jsLength questionText < 15 ∨
          jsLength questionText > 1000 then st
      else
        { st with
          seenQuestionTexts := questionText :: st.seenQuestionTexts
          questions := st.questions ++
            [{ element := questionElement, text := questionText, type := .fillIn,
               choices := [], parentElement := parentElement questionElement,
               inputElement := some input }] }

/-- The loop over `Object.keys(radioGroups)` from the state `st` on, over the names that
are left; `none` when a round throws. -/
def forEachGroup (querySelector : Str → QueryResult) (document : Node) (groups : RadioGroups) :
    ScanState → List Str → Option ScanState
  | st, [] => some st
  | st, groupName :: rest =>
    match processGroup querySelector document groups st groupName with
    | none => none
    | some st => forEachGroup querySelector document groups st rest

/-- The state of `findQuestions` after the loop over the radio groups. -/
def scanRadioGroups (querySelector : Str → QueryResult) (document : Node)
    (groups : RadioGroups) : Option ScanState :=
  forEachGroup querySelector document groups ⟨[], [], []⟩ (objectKeys groups)

/-- The function `findQuestions()`; `none` when it throws. -/
def findQuestions (querySelector : Str → QueryResult) (toLowerCase : Str → Str)
    (document : Node) : Option (List Question) :=
  match groupRadios document [] (querySelectorAll document isRadio) with
  | none => none
  | some groups =>
    match scanRadioGroups querySelector document groups with
    | none => none
    | some st =>
      some ((querySelectorAll document isTextInput).foldl (processInput toLowerCase document)
        st).questions

/-! ## Example documents -/

/-- An element `<p>` with one text node. -/
def paragraph (text : String) : Node :=
  .element "p".toList [] [.text text.toList]

/-- A radio wrapped in its label: `<label><input type="radio" name=… value=…>text</label>`. -/
def labelledRadio (name value text : String) : Node :=
  .element "label".toList []
    [.element "input".toList
        [("type".toList, "radio".toList), ("name".toList, name.toList),
         ("value".toList, value.toList)] [],
     .text text.toList]

/-- A page `<html><body>…</body></html>`. -/
def page (body : List Node) : Node :=
  .element "html".toList [] [.element "body".toList [] body]

/-- Two radio groups named `"2"` and `"1"`, in this order in the document. -/
def digitNamesPage : Node :=
  page [paragraph "Which planet is known as the red planet?",
        labelledRadio "2" "mars" "Mars", labelledRadio "2" "venus" "Venus",
        paragraph "Which planet is the largest of all?",
        labelledRadio "1" "jupiter" "Jupiter", labelledRadio "1" "saturn" "Saturn"]

/-- The question `findQuestions` pushes for a radio group with the given radios whose
question text is found in `questionElement`; its choices are those of `makeChoices`. -/
def groupQuestion (querySelector : Str → QueryResult) (document : Node)
    (radios : List Handle) (questionElement : Handle) : Question :=
  { element := questionElement, text := trimmedText document questionElement,
    type := .multipleChoice,
    choices := (makeChoices querySelector document
      (trimmedText document questionElement) radios).getD [],
    parentElement := parentElement questionElement, inputElement := none }

/-- The question `findQuestions` pushes for a text input whose question text is found in
`questionElement`. -/
def inputQuestion (document : Node) (input : Handle) (questionElement : Handle) : Question :=
  { element := questionElement, text := trimmedText document questionElement,
    type := .fillIn, choices := [], parentElement := parentElement questionElement,
    inputElement := some input }

/-- The element in which the question text of a radio group is found: the result of
`findQuestionTextNear` on the first radio of the group. -/
def groupQuestionElement (document : Node) (groups : RadioGroups) (groupName : Str) :
    Option Handle :=
  (((groups.lookup groupName).getD []).head?).bind (findQuestionTextNear document)

/-- A radio without label: `<input type="radio" name=… [value=…]>`. -/
def bareRadio (name : String) (value : Option String) : Node :=
  .element "input".toList
    (("type".toList, "radio".toList) :: ("name".toList, name.toList) ::
      (match value with
       | some v => [("value".toList, v.toList)]
       | none => [])) []

/-- A text input: `<input type="text" …>` with the given further attributes. -/
def textInput (attrs : List (String × String)) : Node :=
  .element "input".toList
    (("type".toList, "text".toList) :: attrs.map (fun a => (a.1.toList, a.2.toList))) []

/-- Two radio groups after one paragraph; the radios of the first group have neither label
nor value. -/
def sameTextPage : Node :=
  page [paragraph "What is the capital of France?",
        bareRadio "a" none, bareRadio "a" none,
        bareRadio "b" (some "Paris"), bareRadio "b" (some "Rome")]

/-- Two radio groups after one paragraph; every radio has a value. -/
def sameTextValuesPage : Node :=
  page [paragraph "What is the capital of France?",
        bareRadio "a" (some "Paris"), bareRadio "a" (some "Rome"),
        bareRadio "b" (some "Lyon"), bareRadio "b" (some "Nice")]

/-- A question followed by a text input whose `name` attribute is `email`. -/
def emailNamePage : Node :=
  page [paragraph "What is your favourite colour?", textInput [("name", "email")]]

/-- A search box and an answer box, each after a question. -/
def searchBoxPage : Node :=
  page [paragraph "What are you looking for?", textInput [("placeholder", "Search the site")],
        paragraph "What is 6 times 7?", textInput [("name", "answer")]]

/-- A multiple-choice question followed by a fill-in question. -/
def mixedPage : Node :=
  page [paragraph "Which planet is known as the red planet?",
        labelledRadio "q1" "mars" "Mars", labelledRadio "q1" "venus" "Venus",
        paragraph "What is 6 times 7?", textInput [("name", "answer")]]

/-- The first radio of the group a multiple-choice question is built from: the input of
its first choice. -/
def firstRadio (q : Question) : Option Handle :=
  q.choices.head?.map (·.inputElement)

/-- A radio with the id `r1` inside a label that reads `on`, followed by a label for `r1`
that reads `Yes`: `<label><input type="radio" id="r1" name="q" …>on</label>
<label for="r1">Yes</label>`. -/
def onLabelPage (value : Option String) : Node :=
  page [.element "label".toList []
          [.element "input".toList
              (("type".toList, "radio".toList) :: ("id".toList, "r1".toList) ::
                ("name".toList, "q".toList) ::
                (match value with
                 | some v => [("value".toList, v.toList)]
                 | none => [])) [],
           .text "on".toList],
        .element "label".toList [("for".toList, "r1".toList)] [.text "Yes".toList]]

/-- The first `n` preceding element siblings, nearest first, from `sibling` on: the chain of
`previousElementSibling`. -/
def precedingElementSiblings (document : Node) : Nat → Option Handle → List Handle
  | 0, _ => []
  | _ + 1, none => []
  | n + 1, some sibling =>
    sibling :: precedingElementSiblings document n (previousElementSibling document sibling)

/-- The page of the end-to-end scenario: an element with the given text, then the radio
group `q1` with the options `4`, `5` and `6`, each in its label. -/
def arithmeticPage (questionText : Str) : Node :=
  page [.element "p".toList [] [.text questionText],
        labelledRadio "q1" "4" "4", labelledRadio "q1" "5" "5", labelledRadio "q1" "6" "6"]

/-- The completion of the end-to-end scenario. -/
def arithmeticCompletion : Completion :=
  ⟨some "Answer: 4\nExplanation: 4 because 2+2=4".toList, none⟩

/-- The question of the radio group of `arithmeticPage`, with the given text. -/
def arithmeticQuestion (text : Str) : Question :=
  { element := [0, 0], text := text, type := .multipleChoice,
    choices := [⟨some [1, 0], "4".toList, [0, 1, 0]⟩, ⟨some [2, 0], "5".toList, [0, 2, 0]⟩,
                ⟨some [3, 0], "6".toList, [0, 3, 0]⟩],
    parentElement := some [0], inputElement := none }

/-- A radio group whose first radio has the empty value and no label. -/
def emptyValuePage : Node :=
  page [paragraph "Which planet is known as the red planet?",
        bareRadio "q" (some ""), bareRadio "q" (some "Mars")]

/-- Two radio groups named `"2"` and `"1"`, in this order in the document, after one
paragraph; every radio has a value. -/
def digitSameTextPage : Node :=
  page [paragraph "What is the capital of France?",
        bareRadio "2" (some "Paris"), bareRadio "2" (some "Rome"),
        bareRadio "1" (some "Lyon"), bareRadio "1" (some "Nice")]

/-- The `id` of the node a handle names: `radio.id`. -/
def idAt (document : Node) (h : Handle) : Str :=
  ((nodeAt document h).map (·.reflect "id".toList)).getD []

/-- A radio with the id `r1` and no enclosing label, followed by the label for `r1`:
`<input type="radio" id="r1" name="q"><label for="r1">Yes</label>`. -/
def forLabelPage : Node :=
  page [.element "input".toList
          [("type".toList, "radio".toList), ("id".toList, "r1".toList),
           ("name".toList, "q".toList)] [],
        .element "label".toList [("for".toList, "r1".toList)] [.text "Yes".toList]]

/-- A radio without label and value, followed by a text node. -/
def siblingTextPage : Node :=
  page [bareRadio "q" none, .text " Paris ".toList]

/-- A radio without enclosing label whose id holds a quotation mark, followed by a text
node: `<input type="radio" id='a"b' name="q"> Paris`. -/
def quoteIdPage : Node :=
  page [.element "input".toList
          [("type".toList, "radio".toList), ("id".toList, "a\"b".toList),
           ("name".toList, "q".toList)] [],
        .text " Paris ".toList]

/-! ## Strings: lemmas -/

theorem trim_eq_rdropWhile (s : Str) :
    trim s = (s.dropWhile isWhiteSpace).rdropWhile isWhiteSpace := rfl

theorem trim_dropWhile (s : Str) : trim (s.dropWhile isWhiteSpace) = trim s := by
  simp [trim, List.dropWhile_idempotent]

theorem trim_cons_of_not_white {c : Char} (s : Str) (hc : isWhiteSpace c = false) :
    trim (c :: s) = (c :: s).rdropWhile isWhiteSpace := by
  simp [trim_eq_rdropWhile, List.dropWhile_cons, hc]

/-- A string that starts and ends with a character that is not white space is its own
trim. -/
theorem trim_eq_self_of_ends {c : Char} (s : Str) (hc : isWhiteSpace c = false)
    (hl : ∀ h : c :: s ≠ [], isWhiteSpace ((c :: s).getLast h) = false) :
    trim (c :: s) = c :: s := by
  rw [trim_cons_of_not_white s hc, List.rdropWhile_eq_self_iff]
  intro h
  simp [hl h]

theorem head_not_white_of_trim_eq_self {s : Str} (h : trim s = s) (hs : s ≠ []) :
    ∃ c t, s = c :: t ∧ isWhiteSpace c = false := by
  cases s with
  | nil => exact absurd rfl hs
  | cons c t =>
    refine ⟨c, t, rfl, ?_⟩
    by_contra hc
    have hc' : isWhiteSpace c = true := by simpa using hc
    have h1 : (trim (c :: t)).length ≤ t.length := by
      rw [trim_eq_rdropWhile, List.dropWhile_cons, if_pos hc']
      calc _ ≤ (t.dropWhile isWhiteSpace).length :=
            (List.rdropWhile_prefix isWhiteSpace _).length_le
        _ ≤ t.length := (List.dropWhile_sublist isWhiteSpace).length_le
    rw [h] at h1
    simp at h1

theorem last_not_white_of_trim_eq_self {s : Str} (h : trim s = s) (hs : s ≠ []) :
    isWhiteSpace (s.getLast hs) = false := by
  have h1 : (s.dropWhile isWhiteSpace).rdropWhile isWhiteSpace ≠ [] := by
    rw [← trim_eq_rdropWhile, h]; exact hs
  have h2 := List.rdropWhile_last_not isWhiteSpace (s.dropWhile isWhiteSpace) h1
  have h3 : ((s.dropWhile isWhiteSpace).rdropWhile isWhiteSpace).getLast h1 = s.getLast hs := by
    congr 1
  simpa [h3] using h2

/-! ## Regular expressions: lemmas -/

theorem skipSpaces_of_head_not_white {α : Type} (k : Str → Option α) {c : Char} (s : Str)
    (hc : isWhiteSpace c = false) : skipSpaces k (c :: s) = k (c :: s) := by
  simp [skipSpaces, hc]

/-- After a run of white space, `\s*` hands the continuation the text that follows the run
whenever the continuation accepts it. -/
theorem skipSpaces_append {α : Type} (k : Str → Option α) (w s : Str) (r : α)
    (hw : ∀ c ∈ w, isWhiteSpace c = true) (hs : skipSpaces k s = some r) :
    skipSpaces k (w ++ s) = some r := by
  induction w with
  | nil => simpa using hs
  | cons c w ih =>
    have hc : isWhiteSpace c = true := hw c (List.mem_cons_self _ _)
    have ih' := ih (fun d hd => hw d (List.mem_cons_of_mem _ hd))
    simp [skipSpaces, hc, ih']

theorem firstMatch_of_some {α : Type} (f : Str → Option α) (s : Str) (r : α)
    (h : f s = some r) : firstMatch f s = some r := by
  cases s with
  | nil => simpa [firstMatch] using h
  | cons c s => simp [firstMatch, h]

/-- The leftmost match skips a prefix at none of whose positions the pattern matches. -/
theorem firstMatch_append {α : Type} (f : Str → Option α) (a b : Str)
    (h : ∀ u v, a = u ++ v → v ≠ [] → f (v ++ b) = none) :
    firstMatch f (a ++ b) = firstMatch f b := by
  induction a with
  | nil => rfl
  | cons c a ih =>
    have h1 : f (c :: a ++ b) = none := h [] (c :: a) rfl (by simp)
    have h2 : firstMatch f (a ++ b) = firstMatch f b :=
      ih (fun u v huv hv => h (c :: u) v (by simp [huv]) hv)
    simp only [List.cons_append] at h1 ⊢
    simp [firstMatch, h1, h2]

theorem firstMatch_eq_none {α : Type} (f : Str → Option α) (s : Str)
    (h : firstMatch f s = none) : ∀ u v, s = u ++ v → f v = none := by
  induction s with
  | nil =>
    intro u v huv
    have hv : v = [] := (List.append_eq_nil.mp huv.symm).2
    subst hv
    simpa [firstMatch] using h
  | cons c s ih =>
    intro u v huv
    have h1 : f (c :: s) = none ∧ firstMatch f s = none := by
      simp only [firstMatch] at h
      split at h
      · exact absurd h (by simp)
      · exact ⟨by assumption, h⟩
    cases u with
    | nil =>
      simp at huv
      rw [← huv]; exact h1.1
    | cons d u =>
      simp at huv
      exact ih h1.2 u v huv.2

/-- A literal that matches in front of a character it does not contain matches without
what follows that character. -/
theorem litI_append_cons (p u : Str) (c : Char) (r : Str)
    (hp : ∀ x ∈ p, c.toLower ≠ x.toLower) (h : litI p u = none) :
    litI p (u ++ c :: r) = none := by
  induction p generalizing u with
  | nil => simp [litI] at h
  | cons x p ih =>
    cases u with
    | nil =>
      have := hp x (List.mem_cons_self _ _)
      simp [litI, this]
    | cons d u =>
      simp only [litI, List.cons_append] at h ⊢
      split
      · rename_i hd
        rw [if_pos hd] at h
        exact ih u (fun y hy => hp y (List.mem_cons_of_mem _ hy)) h
      · rfl

theorem litI_explanation_append_lf (u r : Str) (h : litI "Explanation:".toList u = none) :
    litI "Explanation:".toList (u ++ '\n' :: r) = none := by
  apply litI_append_cons _ _ _ _ _ h
  decide

/-- A text in which `/Explanation:/i` finds nothing has no match of it at any position. -/
theorem litI_of_not_mentions {s : Str} (h : mentionsExplanation s = false) (u v : Str)
    (huv : s = u ++ v) : litI "Explanation:".toList v = none := by
  apply firstMatch_eq_none _ s _ u v huv
  simpa [mentionsExplanation] using h

/-- The lazy group stops at the first line feed when nothing before it closes the group. -/
theorem lazyAnswer_until_lf (x : Str) (r : Str) (hx : x ≠ []) (hn : '\n' ∉ x)
    (he : ∀ u v, x = u ++ v → litI "Explanation:".toList v = none) :
    lazyAnswer (x ++ '\n' :: r) = some x := by
  induction x with
  | nil => exact absurd rfl hx
  | cons c x ih =>
    cases x with
    | nil => simp [lazyAnswer, answerEnd]
    | cons d x =>
      have hd : d ≠ '\n' := by
        intro hd; apply hn; simp [hd]
      have h1 : litI "Explanation:".toList (d :: x ++ '\n' :: r) = none :=
        litI_explanation_append_lf (d :: x) r (he [c] (d :: x) rfl)
      have h2 : answerEnd (d :: x ++ '\n' :: r) = false := by
        show (d == '\n' || (litI "Explanation:".toList (d :: x ++ '\n' :: r)).isSome) = false
        rw [h1]
        simp [hd]
      have h3 := ih (by simp) (fun hm => hn (List.mem_cons_of_mem _ hm))
        (fun u v huv => he (c :: u) v (by simp [huv]))
      show lazyAnswer (c :: (d :: x ++ '\n' :: r)) = some (c :: d :: x)
      rw [lazyAnswer, h2, h3]
      rfl

theorem firstMatch_cons_of_none {α : Type} (f : Str → Option α) (c : Char) (s : Str)
    (h : f (c :: s) = none) : firstMatch f (c :: s) = firstMatch f s := by
  simp [firstMatch, h]

theorem explanationAt_of_litI_none {s : Str} (h : litI "Explanation:".toList s = none) :
    explanationAt s = none := by
  simp only [explanationAt, h, Option.none_bind]

/-- The answer pattern on `"Answer: X\n..."`: group 1 is `X` without its leading white
space. -/
theorem answerMatch_answerExplanation (X Y : Str) (hX : trim X ≠ []) (hn : '\n' ∉ X)
    (he : mentionsExplanation X = false) :
    answerMatch (answerExplanation X Y) = some (X.dropWhile isWhiteSpace) := by
  have hX' : X.dropWhile isWhiteSpace ≠ [] := by
    intro h0
    apply hX
    simp [trim, h0]
  obtain ⟨c, t, hct⟩ := List.exists_cons_of_ne_nil hX'
  have hc : isWhiteSpace c = false := by
    have := List.head?_dropWhile_not isWhiteSpace X
    rw [hct] at this
    simpa using this
  have hsplit : X = X.takeWhile isWhiteSpace ++ X.dropWhile isWhiteSpace :=
    (List.takeWhile_append_dropWhile isWhiteSpace X).symm
  have hlazy : lazyAnswer (X.dropWhile isWhiteSpace ++ '\n' :: ("Explanation: ".toList ++ Y))
      = some (X.dropWhile isWhiteSpace) := by
    apply lazyAnswer_until_lf _ _ hX'
    · intro hm
      exact hn ((List.dropWhile_sublist isWhiteSpace).subset hm)
    · intro u v huv
      apply litI_of_not_mentions he (X.takeWhile isWhiteSpace ++ u) v
      rw [List.append_assoc, ← huv]
      exact hsplit
  have hskip : skipSpaces lazyAnswer
      (X.dropWhile isWhiteSpace ++ '\n' :: ("Explanation: ".toList ++ Y))
      = some (X.dropWhile isWhiteSpace) := by
    rw [← hlazy, hct]
    exact skipSpaces_of_head_not_white _ _ hc
  have hskip2 : skipSpaces lazyAnswer
      ((' ' :: X.takeWhile isWhiteSpace) ++
        (X.dropWhile isWhiteSpace ++ '\n' :: ("Explanation: ".toList ++ Y)))
      = some (X.dropWhile isWhiteSpace) := by
    apply skipSpaces_append _ _ _ _ _ hskip
    intro d hd
    rcases List.mem_cons.mp hd with h | h
    · subst h; decide
    · exact (List.mem_takeWhile_imp h)
  have hshape : answerExplanation X Y = "Answer:".toList ++
      ((' ' :: X.takeWhile isWhiteSpace) ++
        (X.dropWhile isWhiteSpace ++ '\n' :: ("Explanation: ".toList ++ Y))) := by
    have e : ∀ R : Str, X.takeWhile isWhiteSpace ++ (X.dropWhile isWhiteSpace ++ R) = X ++ R := by
      intro R
      rw [← List.append_assoc, List.takeWhile_append_dropWhile]
    rw [List.cons_append, e]
    simp [answerExplanation]
  apply firstMatch_of_some
  rw [hshape]
  show (litI "Answer:".toList ("Answer:".toList ++ _)).bind (skipSpaces lazyAnswer) = _
  have hlit : ∀ s : Str, litI "Answer:".toList ("Answer:".toList ++ s) = some s := by
    intro s; rfl
  rw [hlit, Option.some_bind, hskip2]

/-- The explanation pattern on `"Answer: X\nExplanation: Y"`: group 1 is `Y`. -/
theorem explanationMatch_answerExplanation (X Y : Str) (he : mentionsExplanation X = false)
    (hY : Y ≠ []) (hYt : trim Y = Y) :
    explanationMatch (answerExplanation X Y) = some Y := by
  obtain ⟨y, t, hyt, hy⟩ := head_not_white_of_trim_eq_self hYt hY
  have h1 : ∀ s : Str, firstMatch explanationAt ("Answer: ".toList ++ s)
      = firstMatch explanationAt s := by
    intro s
    show firstMatch explanationAt ('A' :: 'n' :: 's' :: 'w' :: 'e' :: 'r' :: ':' :: ' ' :: s) = _
    rw [firstMatch_cons_of_none _ _ _ rfl, firstMatch_cons_of_none _ _ _ rfl,
      firstMatch_cons_of_none _ _ _ rfl, firstMatch_cons_of_none _ _ _ rfl,
      firstMatch_cons_of_none _ _ _ rfl, firstMatch_cons_of_none _ _ _ rfl,
      firstMatch_cons_of_none _ _ _ rfl, firstMatch_cons_of_none _ _ _ rfl]
  have h2 : firstMatch explanationAt (X ++ '\n' :: ("Explanation: ".toList ++ Y))
      = firstMatch explanationAt ('\n' :: ("Explanation: ".toList ++ Y)) := by
    apply firstMatch_append
    intro u v huv _
    apply explanationAt_of_litI_none
    exact litI_explanation_append_lf v _ (litI_of_not_mentions he u v huv)
  have h3 : explanationAt ("Explanation: ".toList ++ Y) = some Y := by
    have hlit : litI "Explanation:".toList ("Explanation: ".toList ++ Y) = some (' ' :: Y) := rfl
    rw [explanationAt, hlit, Option.some_bind]
    apply skipSpaces_append _ [' '] Y _ (by decide)
    rw [hyt, skipSpaces_of_head_not_white _ _ hy]
    rfl
  have hshape : answerExplanation X Y
      = "Answer: ".toList ++ (X ++ '\n' :: ("Explanation: ".toList ++ Y)) := by
    simp [answerExplanation]
  rw [explanationMatch, hshape, h1, h2, firstMatch_cons_of_none _ _ _ rfl]
  exact firstMatch_of_some _ _ _ h3

theorem trim_answerExplanation (X Y : Str) (hY : Y ≠ []) (hYt : trim Y = Y) :
    trim (answerExplanation X Y) = answerExplanation X Y := by
  have hshape : answerExplanation X Y
      = 'A' :: ("nswer: ".toList ++ X ++ "\nExplanation: ".toList ++ Y) := by
    simp [answerExplanation]
  rw [hshape]
  apply trim_eq_self_of_ends _ (by decide)
  intro h
  have : ('A' :: ("nswer: ".toList ++ X ++ "\nExplanation: ".toList ++ Y)).getLast h
      = Y.getLast hY := by
    exact List.getLast_append_of_ne_nil (l := 'A' :: ("nswer: ".toList ++ X ++ "\nExplanation: ".toList)) hY
  rw [this]
  exact last_not_white_of_trim_eq_self hYt hY

/-! ## C1: the round trip of `"Answer: X\nExplanation: Y"` -/

theorem exactMatch_first (pre post : List Choice) (c : Choice) (a : Str)
    (hpre : ∀ d ∈ pre, trim d.text ≠ a) (hc : trim c.text = a) :
    exactMatch (pre ++ c :: post) a = some c := by
  have h1 : pre.find? (fun c => trim c.text == a) = none := by
    rw [List.find?_eq_none]
    intro d hd
    simpa using hpre d hd
  simp [exactMatch, List.find?_append, h1, hc]

/-- C1, as the claim states it, fails: the label of the first choice is `"Paris\nFrance"`,
the completion is `"Answer: Paris\nFrance\nExplanation: It is the capital."`, and the
choice that is matched is the second one, labelled `"Paris"`. -/
theorem roundtrip_two_line_label :
    (⟨some [0, 1], "Paris\nFrance".toList, [0, 0, 1]⟩ : Choice) ∈ twoLineLabelQuestion.choices ∧
    analyzeQuestion asciiLower twoLineLabelQuestion
      ⟨some (answerExplanation "Paris\nFrance".toList "It is the capital.".toList), none⟩
      = [.highlightChoice ⟨some [1, 1], "Paris".toList, [0, 1, 1]⟩,
         .addExplanation [0] "It is the capital.".toList] := by
  decide

/-- C1 (amended): for a multiple-choice question, a choice `c` with label `X` such that no
earlier choice has the same trimmed label, where `X` is not blank, has no line feed and no
`Explanation:` in any letter case, and a non-empty `Y` without white space at its ends, the
completion `"Answer: X\nExplanation: Y"` highlights `c` and records the explanation `Y`. -/
theorem analyzeQuestion_answer_explanation_roundtrip (toLowerCase : Str → Str) (q : Question)
    (pre post : List Choice) (c : Choice) (Y : Str) (reasoning : Option Str)
    (hq : q.choices = pre ++ c :: post)
    (hpre : ∀ d ∈ pre, trim d.text ≠ trim c.text)
    (hX : trim c.text ≠ []) (hn : '\n' ∉ c.text) (he : mentionsExplanation c.text = false)
    (hY : Y ≠ []) (hYt : trim Y = Y) :
    analyzeQuestion toLowerCase q ⟨some (answerExplanation c.text Y), reasoning⟩
      = [.highlightChoice c, .addExplanation q.element Y] := by
  have hne : answerExplanation c.text Y ≠ [] := by
    simp [answerExplanation]
  have hct : completionText ⟨some (answerExplanation c.text Y), reasoning⟩
      = answerExplanation c.text Y := by
    obtain ⟨a, s, has⟩ := List.exists_cons_of_ne_nil hne
    simp [completionText, has]
  have hsel : selectedChoice toLowerCase q.choices (trim c.text) = some c := by
    rw [selectedChoice, hq, exactMatch_first pre post c _ hpre rfl]
  have hchoices : q.choices ≠ [] := by
    rw [hq]; simp
  simp only [analyzeQuestion, hct, trim_answerExplanation _ _ hY hYt, if_neg hne,
    if_pos hchoices, answerMatch_answerExplanation _ _ hX hn he, trim_dropWhile, hsel,
    explanationMatch_answerExplanation _ _ he hY hYt, hYt]

/-- C1 (amended) at the question with the labels `"Rome"` and `"Paris"` and the completion
`"Answer: Paris\nExplanation: Paris because it is the capital."`. -/
theorem analyzeQuestion_answer_explanation_roundtrip_witness :
    analyzeQuestion asciiLower capitalQuestion
      ⟨some (answerExplanation "Paris".toList "Paris because it is the capital.".toList), none⟩
      = [.highlightChoice ⟨some [1, 1], "Paris".toList, [0, 1, 1]⟩,
         .addExplanation [0] "Paris because it is the capital.".toList] :=
  analyzeQuestion_answer_explanation_roundtrip asciiLower capitalQuestion
    [⟨some [0, 1], "Rome".toList, [0, 0, 1]⟩] [] ⟨some [1, 1], "Paris".toList, [0, 1, 1]⟩
    "Paris because it is the capital.".toList none
    (by decide) (by decide) (by decide) (by decide) (by decide) (by decide) (by decide)

/-! ## C2: which choice is selected -/

theorem includes_self (s : Str) : includes s s = true := by
  cases s with
  | nil => rfl
  | cons c s =>
    have h : (c :: s).isPrefixOf (c :: s) = true :=
      List.isPrefixOf_iff_prefix.mpr (List.prefix_refl _)
    simp [includes, h]

theorem exactMatch_eq_none (choices : List Choice) (a : Str)
    (h : ∀ d ∈ choices, trim d.text ≠ a) : exactMatch choices a = none := by
  rw [exactMatch, List.find?_eq_none]
  intro d hd
  simpa using h d hd

theorem partialMatch_first (toLowerCase : Str → Str) (pre post : List Choice) (c : Choice)
    (a : Str)
    (hpre : ∀ d ∈ pre, ¬ (includes (toLowerCase (trim d.text)) (toLowerCase a) = true ∨
      includes (toLowerCase a) (toLowerCase (trim d.text)) = true))
    (hc : includes (toLowerCase (trim c.text)) (toLowerCase a) = true ∨
      includes (toLowerCase a) (toLowerCase (trim c.text)) = true) :
    partialMatch toLowerCase (pre ++ c :: post) a = some c := by
  have h1 : pre.find? (fun c =>
      includes (toLowerCase (trim c.text)) (toLowerCase a) ||
      includes (toLowerCase a) (toLowerCase (trim c.text))) = none := by
    rw [List.find?_eq_none]
    intro d hd
    simpa using hpre d hd
  have h2 : (includes (toLowerCase (trim c.text)) (toLowerCase a) ||
      includes (toLowerCase a) (toLowerCase (trim c.text))) = true := by
    simpa using hc
  simp only [partialMatch, List.find?_append, h1, Option.none_or]
  exact List.find?_cons_of_pos _ h2

theorem partialMatch_eq_none (toLowerCase : Str → Str) (choices : List Choice) (a : Str)
    (h : ∀ d ∈ choices, ¬ (includes (toLowerCase (trim d.text)) (toLowerCase a) = true ∨
      includes (toLowerCase a) (toLowerCase (trim d.text)) = true)) :
    partialMatch toLowerCase choices a = none := by
  rw [partialMatch, List.find?_eq_none]
  intro d hd
  simpa using h d hd

/-- What `analyzeQuestion` does for a multiple-choice question once `selectedChoice` is
known. -/
theorem analyzeQuestion_of_answer (toLowerCase : Str → Str) (q : Question) (data : Completion)
    (g : Str) (hq : q.choices ≠ []) (hr : trim (completionText data) ≠ [])
    (hg : answerMatch (trim (completionText data)) = some g) :
    analyzeQuestion toLowerCase q data =
      match selectedChoice toLowerCase q.choices (trim g) with
      | some c =>
        [.highlightChoice c,
         .addExplanation q.element
           (match explanationMatch (trim (completionText data)) with
            | some e => trim e
            | none => trim g ++ " because it is the correct answer.".toList)]
      | none => [.addError q.element (unmatchedAnswerMessage (trim g))] := by
  simp only [analyzeQuestion, if_neg hr, if_pos hq, hg]

/-- C2: for a multiple-choice question and a completion from which the answer text `a` is
extracted, (1) the first choice whose trimmed label is `a` is highlighted; (2) when no
trimmed label is `a`, the first choice, in order, whose lower-cased trimmed label includes
the lower-cased `a` or is included in it is highlighted; (3) when no label is in that
relation with `a`, the only call is the unmatched-answer error, so nothing is highlighted;
(4) the answer `"Paris, France"` selects the choice labelled `"Paris"` that is first in
that relation, by rule (2). -/
theorem analyzeQuestion_selection :
    (∀ (toLowerCase : Str → Str) (q : Question) (data : Completion) (g : Str),
      q.choices ≠ [] → trim (completionText data) ≠ [] →
      answerMatch (trim (completionText data)) = some g →
      (∀ pre c post, q.choices = pre ++ c :: post →
          (∀ d ∈ pre, trim d.text ≠ trim g) → trim c.text = trim g →
          ∃ e, analyzeQuestion toLowerCase q data
            = [.highlightChoice c, .addExplanation q.element e]) ∧
      (∀ pre c post, q.choices = pre ++ c :: post →
          (∀ d ∈ q.choices, trim d.text ≠ trim g) →
          (∀ d ∈ pre, ¬ (includes (toLowerCase (trim d.text)) (toLowerCase (trim g)) = true ∨
            includes (toLowerCase (trim g)) (toLowerCase (trim d.text)) = true)) →
          (includes (toLowerCase (trim c.text)) (toLowerCase (trim g)) = true ∨
            includes (toLowerCase (trim g)) (toLowerCase (trim c.text)) = true) →
          ∃ e, analyzeQuestion toLowerCase q data
            = [.highlightChoice c, .addExplanation q.element e]) ∧
      ((∀ d ∈ q.choices,
          ¬ (includes (toLowerCase (trim d.text)) (toLowerCase (trim g)) = true ∨
            includes (toLowerCase (trim g)) (toLowerCase (trim d.text)) = true)) →
          analyzeQuestion toLowerCase q data
            = [.addError q.element (unmatchedAnswerMessage (trim g))])) ∧
    (∀ (q : Question) (pre post : List Choice) (c : Choice) (reasoning : Option Str),
      q.choices = pre ++ c :: post → c.text = "Paris".toList →
      (∀ d ∈ q.choices, trim d.text ≠ "Paris, France".toList) →
      (∀ d ∈ pre, ¬ (includes (asciiLower (trim d.text)) "paris, france".toList = true ∨
            includes "paris, france".toList (asciiLower (trim d.text)) = true)) →
      analyzeQuestion asciiLower q ⟨some "Answer: Paris, France".toList, reasoning⟩
        = [.highlightChoice c, .addExplanation q.element
            "Paris, France because it is the correct answer.".toList]) := by
  refine ⟨?_, ?_⟩
  · intro toLowerCase q data g hq hr hg
    have hA := analyzeQuestion_of_answer toLowerCase q data g hq hr hg
    refine ⟨?_, ?_, ?_⟩
    · intro pre c post hsplit hpre hc
      rw [hA, selectedChoice, hsplit, exactMatch_first pre post c _ hpre hc]
      exact ⟨_, rfl⟩
    · intro pre c post hsplit hno hpre hc
      rw [hA, selectedChoice, exactMatch_eq_none _ _ hno, hsplit,
        partialMatch_first toLowerCase pre post c _ hpre hc]
      exact ⟨_, rfl⟩
    · intro hno
      have hex : exactMatch q.choices (trim g) = none := by
        apply exactMatch_eq_none
        intro d hd heq
        apply hno d hd
        left
        rw [heq]
        exact includes_self _
      rw [hA, selectedChoice, hex, partialMatch_eq_none toLowerCase _ _ hno]
  · intro q pre post c reasoning hsplit hc hno hpre
    have hq : q.choices ≠ [] := by rw [hsplit]; simp
    have hct : completionText ⟨some "Answer: Paris, France".toList, reasoning⟩
        = "Answer: Paris, France".toList := rfl
    have hA := analyzeQuestion_of_answer asciiLower q
      ⟨some "Answer: Paris, France".toList, reasoning⟩ "Paris, France".toList hq
      (by rw [hct]; decide) (by rw [hct]; decide)
    have ht : trim "Paris, France".toList = "Paris, France".toList := by decide
    have hl : asciiLower "Paris, France".toList = "paris, france".toList := by decide
    have hsel : selectedChoice asciiLower q.choices "Paris, France".toList = some c := by
      rw [selectedChoice, exactMatch_eq_none _ _ hno, hsplit]
      apply partialMatch_first asciiLower pre post c "Paris, France".toList
      · rw [hl]; exact hpre
      · right
        rw [hc]
        decide
    have hm : explanationMatch (trim "Answer: Paris, France".toList) = none := by decide
    rw [hA, ht, hsel, hct, hm]
    rfl

theorem analyzeQuestion_selection_witness :
    ∃ e, analyzeQuestion asciiLower capitalQuestion ⟨some "Answer: rome".toList, none⟩
      = [.highlightChoice ⟨some [0, 1], "Rome".toList, [0, 0, 1]⟩, .addExplanation [0] e] :=
  (analyzeQuestion_selection.1 asciiLower capitalQuestion ⟨some "Answer: rome".toList, none⟩
    "rome".toList (by decide) (by decide) (by decide)).2.1
    [] ⟨some [0, 1], "Rome".toList, [0, 0, 1]⟩ [⟨some [1, 1], "Paris".toList, [0, 1, 1]⟩]
    (by decide) (by decide) (by decide) (by decide)

/-! ## C3: the empty response -/

theorem emptyResponseMessage_ne_parseFailureMessage (r : Str) :
    emptyResponseMessage ≠ parseFailureMessage r := by
  intro h
  simp [emptyResponseMessage, parseFailureMessage] at h

theorem emptyResponseMessage_ne_unmatchedAnswerMessage (a : Str) :
    emptyResponseMessage ≠ unmatchedAnswerMessage a := by
  intro h
  simp [emptyResponseMessage, unmatchedAnswerMessage] at h

theorem parseFailureMessage_ne_unmatchedAnswerMessage (r a : Str) :
    parseFailureMessage r ≠ unmatchedAnswerMessage a := by
  intro h
  simp [parseFailureMessage, unmatchedAnswerMessage] at h

/-- Every run of `analyzeQuestion` reports at most one error. -/
theorem analyzeQuestion_addError_unique (toLowerCase : Str → Str) (q : Question)
    (data : Completion) (e₁ e₂ : Handle) (m₁ m₂ : Str)
    (h₁ : Effect.addError e₁ m₁ ∈ analyzeQuestion toLowerCase q data)
    (h₂ : Effect.addError e₂ m₂ ∈ analyzeQuestion toLowerCase q data) : m₁ = m₂ := by
  by_cases h0 : trim (completionText data) = []
  · simp [analyzeQuestion, h0] at h₁ h₂
    rw [h₁.2, h₂.2]
  · by_cases hq : q.choices = []
    · cases hi : q.inputElement with
      | none => simp [analyzeQuestion, h0, hq, hi] at h₁
      | some i =>
        simp only [analyzeQuestion, if_neg h0, hq, hi] at h₁
        rcases List.mem_cons.mp h₁ with h | h
        · simp at h
        · split at h <;> simp at h
    · cases hg : answerMatch (trim (completionText data)) with
      | none =>
        simp [analyzeQuestion, h0, hq, hg] at h₁ h₂
        rw [h₁.2, h₂.2]
      | some g =>
        cases hs : selectedChoice toLowerCase q.choices (trim g) with
        | none =>
          simp [analyzeQuestion, h0, hq, hg, hs] at h₁ h₂
          rw [h₁.2, h₂.2]
        | some c =>
          simp [analyzeQuestion, h0, hq, hg, hs] at h₁

/-- C3: when the trimmed completion text is empty, `analyzeQuestion` makes exactly one call,
the empty-response error: no parse-failure error, no unmatched-answer error, no choice
highlighted; the three error messages are pairwise distinct for every response and answer
text; and no run of `analyzeQuestion` reports two of the three errors. -/
theorem analyzeQuestion_empty_response :
    (∀ (toLowerCase : Str → Str) (q : Question) (data : Completion),
      trim (completionText data) = [] →
      analyzeQuestion toLowerCase q data = [.addError q.element emptyResponseMessage] ∧
      (∀ e r, Effect.addError e (parseFailureMessage r) ∉ analyzeQuestion toLowerCase q data) ∧
      (∀ e a, Effect.addError e (unmatchedAnswerMessage a) ∉
        analyzeQuestion toLowerCase q data) ∧
      (∀ c, Effect.highlightChoice c ∉ analyzeQuestion toLowerCase q data)) ∧
    (∀ r a : Str, emptyResponseMessage ≠ parseFailureMessage r ∧
      emptyResponseMessage ≠ unmatchedAnswerMessage a ∧
      parseFailureMessage r ≠ unmatchedAnswerMessage a) ∧
    (∀ (toLowerCase : Str → Str) (q : Question) (data : Completion) (e₁ e₂ e₃ : Handle)
      (r a : Str),
      ¬ (Effect.addError e₁ emptyResponseMessage ∈ analyzeQuestion toLowerCase q data ∧
          Effect.addError e₂ (parseFailureMessage r) ∈ analyzeQuestion toLowerCase q data) ∧
      ¬ (Effect.addError e₁ emptyResponseMessage ∈ analyzeQuestion toLowerCase q data ∧
          Effect.addError e₃ (unmatchedAnswerMessage a) ∈
            analyzeQuestion toLowerCase q data) ∧
      ¬ (Effect.addError e₂ (parseFailureMessage r) ∈ analyzeQuestion toLowerCase q data ∧
          Effect.addError e₃ (unmatchedAnswerMessage a) ∈
            analyzeQuestion toLowerCase q data)) := by
  refine ⟨?_, ?_, ?_⟩
  · intro toLowerCase q data h
    have hA : analyzeQuestion toLowerCase q data
        = [.addError q.element emptyResponseMessage] := by
      simp only [analyzeQuestion, h, if_true]
    rw [hA]
    refine ⟨rfl, ?_, ?_, ?_⟩
    · intro e r hm
      simp only [List.mem_singleton, Effect.addError.injEq] at hm
      exact emptyResponseMessage_ne_parseFailureMessage r hm.2.symm
    · intro e a hm
      simp only [List.mem_singleton, Effect.addError.injEq] at hm
      exact emptyResponseMessage_ne_unmatchedAnswerMessage a hm.2.symm
    · intro c hm
      simp at hm
  · intro r a
    exact ⟨emptyResponseMessage_ne_parseFailureMessage r,
      emptyResponseMessage_ne_unmatchedAnswerMessage a,
      parseFailureMessage_ne_unmatchedAnswerMessage r a⟩
  · intro toLowerCase q data e₁ e₂ e₃ r a
    refine ⟨?_, ?_, ?_⟩
    · rintro ⟨h₁, h₂⟩
      exact emptyResponseMessage_ne_parseFailureMessage r
        (analyzeQuestion_addError_unique toLowerCase q data _ _ _ _ h₁ h₂)
    · rintro ⟨h₁, h₂⟩
      exact emptyResponseMessage_ne_unmatchedAnswerMessage a
        (analyzeQuestion_addError_unique toLowerCase q data _ _ _ _ h₁ h₂)
    · rintro ⟨h₁, h₂⟩
      exact parseFailureMessage_ne_unmatchedAnswerMessage r a
        (analyzeQuestion_addError_unique toLowerCase q data _ _ _ _ h₁ h₂)

/-- C3 at a completion whose content is blank and whose reasoning is absent. -/
theorem analyzeQuestion_empty_response_witness :
    analyzeQuestion asciiLower capitalQuestion ⟨some " \n ".toList, none⟩
      = [.addError [0] emptyResponseMessage] :=
  (analyzeQuestion_empty_response.1 asciiLower capitalQuestion ⟨some " \n ".toList, none⟩
    (by decide)).1

/-! ## C4: no match of the answer pattern -/

theorem splitLines_ne_nil (s : Str) : splitLines s ≠ [] := by
  cases s with
  | nil => simp [splitLines]
  | cons c s =>
    simp only [splitLines]
    split
    · simp
    · split <;> simp

theorem firstLine_eq_takeWhile (s : Str) : firstLine s = s.takeWhile (fun c => c != '\n') := by
  induction s with
  | nil => rfl
  | cons c s ih =>
    by_cases hc : c = '\n'
    · simp [firstLine, splitLines, hc]
    · have h1 : firstLine (c :: s) = c :: firstLine s := by
        simp only [firstLine, splitLines, if_neg hc]
        cases h : splitLines s with
        | nil => exact absurd h (splitLines_ne_nil s)
        | cons l ls => simp
      rw [h1, ih]
      simp [List.takeWhile_cons, hc]

/-- C4: when the trimmed completion is not empty and the answer pattern finds no match, a
multiple-choice question gets exactly the parse-failure error, so no choice is selected,
and a fill-in question gets its input filled with the first line of the completion,
which is the text before its first line feed, followed by nothing but an explanation. -/
theorem analyzeQuestion_no_answer_match (toLowerCase : Str → Str) (q : Question)
    (data : Completion) (hr : trim (completionText data) ≠ [])
    (hno : answerMatch (trim (completionText data)) = none) :
    (q.choices ≠ [] → analyzeQuestion toLowerCase q data
        = [.addError q.element (parseFailureMessage (trim (completionText data)))]) ∧
    (q.choices = [] → ∀ i, q.inputElement = some i →
      ∃ rest, analyzeQuestion toLowerCase q data
          = .highlightFillIn q.element
              ((trim (completionText data)).takeWhile (fun c => c != '\n')) i :: rest ∧
        ∀ e ∈ rest, ∃ x, e = .addExplanation q.element x) := by
  refine ⟨?_, ?_⟩
  · intro hq
    simp only [analyzeQuestion, if_neg hr, if_pos hq, hno]
  · intro hq i hi
    have hq' : ¬ (q.choices ≠ []) := by simp [hq]
    simp only [analyzeQuestion, if_neg hr, if_neg hq', hi, hno, firstLine_eq_takeWhile]
    refine ⟨_, rfl, ?_⟩
    intro e he
    split at he
    · simp only [List.mem_singleton] at he
      exact ⟨_, he⟩
    · simp at he

/-- C4 at a fill-in question and the completion `"42\nsix sevens"`. -/
theorem analyzeQuestion_no_answer_match_witness :
    ∃ rest, analyzeQuestion asciiLower fillInQuestion ⟨some "42\nsix sevens".toList, none⟩
        = .highlightFillIn [0] "42".toList [1] :: rest ∧
      ∀ e ∈ rest, ∃ x, e = .addExplanation [0] x :=
  (analyzeQuestion_no_answer_match asciiLower fillInQuestion
    ⟨some "42\nsix sevens".toList, none⟩ (by decide) (by decide)).2 (by decide) [1]
    (by decide)

/-! ## C10: the prompt of a multiple-choice question -/

theorem splitLines_append_lf (a b : Str) :
    splitLines (a ++ '\n' :: b) = splitLines a ++ splitLines b := by
  induction a with
  | nil => simp [splitLines]
  | cons c a ih =>
    by_cases hc : c = '\n'
    · simp [splitLines, hc, ih]
    · show splitLines (c :: (a ++ '\n' :: b)) = splitLines (c :: a) ++ splitLines b
      simp only [splitLines, if_neg hc]
      rw [ih]
      cases h : splitLines a with
      | nil => exact absurd h (splitLines_ne_nil a)
      | cons l ls => simp

theorem splitLines_of_no_lf (a : Str) (h : '\n' ∉ a) : splitLines a = [a] := by
  induction a with
  | nil => rfl
  | cons c a ih =>
    have hc : c ≠ '\n' := fun hc => h (by simp [hc])
    have ha := ih (fun hm => h (List.mem_cons_of_mem _ hm))
    simp [splitLines, hc, ha]

/-- Splitting the newline-joined labels gives the labels back when none has a line feed. -/
theorem splitLines_join (labels : List Str) (hne : labels ≠ [])
    (h : ∀ l ∈ labels, '\n' ∉ l) : splitLines (join "\n".toList labels) = labels := by
  induction labels with
  | nil => exact absurd rfl hne
  | cons x xs ih =>
    cases xs with
    | nil => simpa [join] using splitLines_of_no_lf x (h x (List.mem_cons_self _ _))
    | cons y ys =>
      have h1 : join "\n".toList (x :: y :: ys) = x ++ '\n' :: join "\n".toList (y :: ys) := by
        simp [join]
      rw [h1, splitLines_append_lf, splitLines_of_no_lf x (h x (List.mem_cons_self _ _)),
        ih (by simp) (fun l hl => h l (List.mem_cons_of_mem _ hl))]
      rfl

/-- C10, as the claim states it, fails: the label `"Paris\nFrance"` of the first choice is
not a line of the prompt. -/
theorem prompt_two_line_label :
    "Paris\nFrance".toList ∈ twoLineLabelQuestion.choices.map (·.text) ∧
    "Paris\nFrance".toList ∉ splitLines (prompt twoLineLabelQuestion) := by
  decide

/-- C10 (amended): for a multiple-choice question none of whose labels contains a line
feed, the lines of the prompt are the lines of the question text, an empty line, the line
`Group of answer choices:`, then the labels, one per line and in the original order, then
an empty line and the three lines of the response-format instructions. -/
theorem prompt_lines (q : Question) (hq : q.choices ≠ [])
    (h : ∀ c ∈ q.choices, '\n' ∉ c.text) :
    splitLines (prompt q) =
      splitLines q.text ++ [[], "Group of answer choices:".toList] ++
        q.choices.map (·.text) ++
        [[], "Respond with only:".toList,
         "Answer: [the exact text of the correct answer choice]".toList,
         "Explanation: [correct answer] because [brief reason]".toList] := by
  have hshape : prompt q = q.text ++ '\n' :: ("\nGroup of answer choices:".toList ++ '\n' ::
      (join "\n".toList (q.choices.map (·.text)) ++ '\n' ::
        "\nRespond with only:\nAnswer: [the exact text of the correct answer choice]\nExplanation: [correct answer] because [brief reason]".toList)) := by
    simp [prompt, hq]
  have hlabels : splitLines (join "\n".toList (q.choices.map (·.text)))
      = q.choices.map (·.text) := by
    apply splitLines_join
    · simpa using hq
    · intro l hl
      obtain ⟨c, hc, rfl⟩ := List.mem_map.mp hl
      exact h c hc
  have hhead : splitLines "\nGroup of answer choices:".toList
      = [[], "Group of answer choices:".toList] := by decide
  have htail : splitLines "\nRespond with only:\nAnswer: [the exact text of the correct answer choice]\nExplanation: [correct answer] because [brief reason]".toList
      = [[], "Respond with only:".toList,
         "Answer: [the exact text of the correct answer choice]".toList,
         "Explanation: [correct answer] because [brief reason]".toList] := by decide
  rw [hshape, splitLines_append_lf, splitLines_append_lf, splitLines_append_lf, hlabels,
    hhead, htail]
  simp only [List.append_assoc]

/-- C10 (amended) at the question with the labels `"Rome"` and `"Paris"`. -/
theorem prompt_lines_witness :
    splitLines (prompt capitalQuestion) =
      ["What is the capital of France?".toList, [], "Group of answer choices:".toList,
       "Rome".toList, "Paris".toList, [], "Respond with only:".toList,
       "Answer: [the exact text of the correct answer choice]".toList,
       "Explanation: [correct answer] because [brief reason]".toList] :=
  prompt_lines capitalQuestion (by decide) (by decide)


/-! ## C5: extractChoiceText and the placeholder `"on"` -/

/-- C5, as the claim states it, fails: the radio of `onLabelPage none` sits in a label that
reads `on`, the label that `label[for="r1"]` selects reads `Yes`, and `extractChoiceText`
returns `"on"`: the label for the id is not consulted. -/
theorem on_label_returns_on :
    closestLabel (onLabelPage none) [0, 0, 0] = some [0, 0] ∧
    trimmedText (onLabelPage none) [0, 0] = "on".toList ∧
    idAt (onLabelPage none) [0, 0, 0] = "r1".toList ∧
    (labelFor throwingQuerySelector (onLabelPage none) "r1".toList).map
        (Option.map (fun f => trim f.textContent)) = some (some "Yes".toList) ∧
    extractChoiceText throwingQuerySelector (onLabelPage none) [0, 0, 0]
        "Is the switch on right now?".toList = some "on".toList := by
  decide

/-- The value fallback does not yield `"on"` when the value is not `"on"`. -/
theorem valueFallback_ne_on (labelText value : Str) (hv : value ≠ "on".toList) :
    (if labelText = [] ∨ labelText = "on".toList then value else labelText) ≠ "on".toList := by
  split_ifs with h
  · exact hv
  · exact fun heq => h (Or.inr heq)

/-- C5 (amended): `extractChoiceText` does not return `"on"` when the radio has a `value`
attribute other than `"on"`. It returns the text of the enclosing label when that is
neither empty nor `"on"`. When there is no enclosing label or it has no text: if the radio
has an id and `document.querySelector` returns a label for it whose text is neither empty
nor `"on"`, it returns that text; if the radio has no id, or no label is found for it, or
that label has no text, it returns the text of the following text sibling, or else of the
following element sibling, when that is neither empty nor `"on"`. Only the parent-text
stage and the value fallback treat `"on"` as absent: when the enclosing label reads `"on"`,
the direct text of the parent is returned if it is neither empty nor `"on"`, and `"on"`
itself is returned, whatever the label for the id and the following siblings read, if the
parent has no other text and the value of the radio is `"on"`. -/
theorem extractChoiceText_on (querySelector : Str → QueryResult) (document : Node)
    (radio : Handle) (questionText : Str) :
    (∀ n v, nodeAt document radio = some n → n.getAttribute "value".toList = some v →
      v ≠ "on".toList →
      extractChoiceText querySelector document radio questionText ≠ some "on".toList) ∧
    (∀ l, closestLabel document radio = some l → trimmedText document l ≠ [] →
      trimmedText document l ≠ "on".toList →
      extractChoiceText querySelector document radio questionText
        = some (trimmedText document l)) ∧
    ((∀ l, closestLabel document radio = some l → trimmedText document l = []) →
      idAt document radio ≠ [] →
      ∀ f, labelFor querySelector document (idAt document radio) = some (some f) →
      trim f.textContent ≠ [] → trim f.textContent ≠ "on".toList →
      extractChoiceText querySelector document radio questionText
        = some (trim f.textContent)) ∧
    ((∀ l, closestLabel document radio = some l → trimmedText document l = []) →
      (idAt document radio = [] ∨
        labelFor querySelector document (idAt document radio) = some none ∨
        ∃ f, labelFor querySelector document (idAt document radio) = some (some f) ∧
          trim f.textContent = []) →
      ∀ t, (t = nextTextSiblingText (followingSiblings document radio) ∨
        (nextTextSiblingText (followingSiblings document radio) = [] ∧
          t = nextElementSiblingText (followingSiblings document radio))) →
      t ≠ [] → t ≠ "on".toList →
      extractChoiceText querySelector document radio questionText = some t) ∧
    (∀ l, closestLabel document radio = some l → trimmedText document l = "on".toList →
      ∀ parent, (parentElement radio).bind (nodeAt document) = some parent →
      directText parent ≠ [] → directText parent ≠ "on".toList →
      extractChoiceText querySelector document radio questionText
        = some (directText parent)) ∧
    (∀ l, closestLabel document radio = some l → trimmedText document l = "on".toList →
      (∀ parent, (parentElement radio).bind (nodeAt document) = some parent →
        (directText parent = [] ∨ directText parent = "on".toList) ∧
        (trim parent.textContent = [] ∨ trim parent.textContent = "on".toList ∨
          trim parent.textContent = questionText)) →
      (∃ n, nodeAt document radio = some n ∧ n.value = "on".toList) →
      extractChoiceText querySelector document radio questionText = some "on".toList) := by
  have hon : "on".toList = ['o', 'n'] := rfl
  have hidl : "id".toList = ['i', 'd'] := rfl
  refine ⟨?_, ?_, ?_, ?_, ?_, ?_⟩
  · intro n v hn hv hvon
    unfold extractChoiceText
    simp only [hn, Node.value, hv, Option.map_some', Option.getD_some]
    split
    · exact Option.noConfusion
    · simp only [ne_eq, Option.some.injEq]
      exact valueFallback_ne_on _ _ hvon
  · intro l hl h1 h2
    rw [hon] at h2
    simp [extractChoiceText, hl, h1, h2]
  · intro h0 hid f hf h1 h2
    rw [hon] at h2
    rw [idAt, hidl] at hid hf
    cases hc : closestLabel document radio with
    | none => simp [extractChoiceText, hc, hid, hf, h1, h2]
    | some l => simp [extractChoiceText, hc, h0 l hc, hid, hf, h1, h2]
  · intro h0 hfor t ht h1 h2
    rw [hon] at h2
    rw [idAt, hidl] at hfor
    have h3 : (if nextTextSiblingText (followingSiblings document radio) = [] then
          nextElementSiblingText (followingSiblings document radio)
        else nextTextSiblingText (followingSiblings document radio)) = t := by
      rcases ht with ht | ⟨ht0, ht⟩
      · rw [if_neg (ht ▸ h1), ← ht]
      · rw [if_pos ht0, ← ht]
    have hl : (match closestLabel document radio with
        | some parentLabel => trimmedText document parentLabel
        | none => []) = [] := by
      cases hc : closestLabel document radio with
      | none => rfl
      | some l => exact h0 l hc
    cases hc : closestLabel document radio with
    | none =>
      rcases hfor with hid | hnone | ⟨f, hf, hf0⟩
      · simp [extractChoiceText, hc, hid, h3, h1, h2]
      · by_cases hid : ((nodeAt document radio).map (·.reflect ['i', 'd'])).getD [] = []
        · simp [extractChoiceText, hc, hid, h3, h1, h2]
        · simp [extractChoiceText, hc, hid, hnone, h3, h1, h2]
      · by_cases hid : ((nodeAt document radio).map (·.reflect ['i', 'd'])).getD [] = []
        · simp [extractChoiceText, hc, hid, h3, h1, h2]
        · simp [extractChoiceText, hc, hid, hf, hf0, h3, h1, h2]
    | some l =>
      have h0l := h0 l hc
      rcases hfor with hid | hnone | ⟨f, hf, hf0⟩
      · simp [extractChoiceText, hc, h0l, hid, h3, h1, h2]
      · by_cases hid : ((nodeAt document radio).map (·.reflect ['i', 'd'])).getD [] = []
        · simp [extractChoiceText, hc, h0l, hid, h3, h1, h2]
        · simp [extractChoiceText, hc, h0l, hid, hnone, h3, h1, h2]
      · by_cases hid : ((nodeAt document radio).map (·.reflect ['i', 'd'])).getD [] = []
        · simp [extractChoiceText, hc, h0l, hid, h3, h1, h2]
        · simp [extractChoiceText, hc, h0l, hid, hf, hf0, h3, h1, h2]
  · intro l hl h1 parent hp hd1 hd2
    rw [hon] at h1 hd2
    simp [extractChoiceText, hl, h1, hp, hd1, hd2]
  · intro l hl h1 hparent hvalue
    rw [hon] at h1 ⊢
    obtain ⟨n, hn, hv⟩ := hvalue
    rw [hon] at hv
    cases hp : (parentElement radio).bind (nodeAt document) with
    | none => simp [extractChoiceText, hl, h1, hp, hn, hv]
    | some parent =>
      obtain ⟨hd, ha⟩ := hparent parent hp
      rw [hon] at hd ha
      rcases hd with hd | hd <;> rcases ha with ha | ha | ha <;>
        simp [extractChoiceText, hl, h1, hp, hn, hv, hd, ha]

/-- C5 (amended) at five radios: a label that reads `on` with the value `yes`, a label
that reads `Mars`, a label for the id that reads `Yes`, a following text node that reads
`Paris`, and a label that reads `on` without another text or value. -/
theorem extractChoiceText_on_witness :
    extractChoiceText throwingQuerySelector (onLabelPage (some "yes")) [0, 0, 0]
      "Is the switch on right now?".toList ≠ some "on".toList ∧
    extractChoiceText throwingQuerySelector mixedPage [0, 1, 0]
      "Which planet is known as the red planet?".toList = some "Mars".toList ∧
    extractChoiceText throwingQuerySelector forLabelPage [0, 0]
      "Is the switch on right now?".toList = some "Yes".toList ∧
    extractChoiceText throwingQuerySelector siblingTextPage [0, 0]
      "What is the capital of France?".toList = some "Paris".toList ∧
    extractChoiceText throwingQuerySelector (onLabelPage none) [0, 0, 0]
      "Is the switch on right now?".toList = some "on".toList :=
  ⟨(extractChoiceText_on throwingQuerySelector (onLabelPage (some "yes")) [0, 0, 0]
      "Is the switch on right now?".toList).1 _ "yes".toList rfl (by decide) (by decide),
    (extractChoiceText_on throwingQuerySelector mixedPage [0, 1, 0]
      "Which planet is known as the red planet?".toList).2.1 [1, 0] (by decide) (by decide)
      (by decide),
    (extractChoiceText_on throwingQuerySelector forLabelPage [0, 0]
      "Is the switch on right now?".toList).2.2.1 (by decide) (by decide)
      (.element "label".toList [("for".toList, "r1".toList)] [.text "Yes".toList]) rfl
      (by decide) (by decide),
    (extractChoiceText_on throwingQuerySelector siblingTextPage [0, 0]
      "What is the capital of France?".toList).2.2.2.1 (by decide) (Or.inl (by decide))
      "Paris".toList (Or.inl (by decide)) (by decide) (by decide),
    (extractChoiceText_on throwingQuerySelector (onLabelPage none) [0, 0, 0]
      "Is the switch on right now?".toList).2.2.2.2.2 [0, 0] (by decide) (by decide)
      (fun parent hp => by
        have h : parent = .element "label".toList []
            [.element "input".toList
                [("type".toList, "radio".toList), ("id".toList, "r1".toList),
                 ("name".toList, "q".toList)] [],
             .text "on".toList] := (Option.some.inj hp).symm
        subst h
        exact ⟨Or.inr (by decide), Or.inr (Or.inl (by decide))⟩)
      ⟨_, rfl, by decide⟩⟩

/-- The throw of Method 2: the radio of `quoteIdPage` has the id `a"b` and no enclosing
label; when `document.querySelector` throws at the selector `label[for="a"b"]`,
`extractChoiceText` does not return, although the following text node reads `Paris`. -/
theorem extractChoiceText_throws :
    idAt quoteIdPage [0, 0] = "a\"b".toList ∧
    selectorSafe (idAt quoteIdPage [0, 0]) = false ∧
    labelForSelector (idAt quoteIdPage [0, 0]) = "label[for=\"a\"b\"]".toList ∧
    extractChoiceText throwingQuerySelector quoteIdPage [0, 0]
      "What is the capital of France?".toList = none := by
  decide

/-! ## findQuestions: the two loops, one round at a time -/

theorem makeChoices_length (querySelector : Str → QueryResult) (document : Node) (T : Str)
    (radios : List Handle) (cs : List Choice)
    (h : makeChoices querySelector document T radios = some cs) :
    cs.length = radios.length := by
  induction radios generalizing cs with
  | nil =>
    simp only [makeChoices, Option.some.injEq] at h
    subst h
    rfl
  | cons r radios ih =>
    simp only [makeChoices] at h
    cases hc : makeChoice querySelector document T r with
    | none => simp [hc] at h
    | some c =>
      cases hcs : makeChoices querySelector document T radios with
      | none => simp [hc, hcs] at h
      | some cs' =>
        simp only [hc, hcs, Option.map_some', Option.some.injEq] at h
        rw [← h, List.length_cons, List.length_cons, ih cs' hcs]

theorem makeChoices_inputs (querySelector : Str → QueryResult) (document : Node) (T : Str)
    (radios : List Handle) (cs : List Choice)
    (h : makeChoices querySelector document T radios = some cs) :
    cs.map (·.inputElement) = radios := by
  induction radios generalizing cs with
  | nil =>
    simp only [makeChoices, Option.some.injEq] at h
    rw [← h]
    rfl
  | cons r radios ih =>
    simp only [makeChoices] at h
    cases hc : makeChoice querySelector document T r with
    | none => simp [hc] at h
    | some c =>
      cases hcs : makeChoices querySelector document T radios with
      | none => simp [hc, hcs] at h
      | some cs' =>
        simp only [hc, hcs, Option.map_some', Option.some.injEq] at h
        have hr : c.inputElement = r := by
          unfold makeChoice at hc
          cases ht : extractChoiceText querySelector document r T with
          | none => simp [ht] at hc
          | some t =>
            simp only [ht, Option.map_some', Option.some.injEq] at hc
            rw [← hc]
        rw [← h, List.map_cons, ih cs' hcs, hr]

/-- The choice texts are the results of `extractChoiceText`, radio by radio. -/
theorem makeChoices_texts (querySelector : Str → QueryResult) (document : Node) (T : Str)
    (radios : List Handle) (cs : List Choice)
    (h : makeChoices querySelector document T radios = some cs) :
    radios.map (extractChoiceText querySelector document · T) = cs.map (fun c => some c.text) := by
  induction radios generalizing cs with
  | nil =>
    simp only [makeChoices, Option.some.injEq] at h
    rw [← h]
    rfl
  | cons r radios ih =>
    simp only [makeChoices] at h
    cases hc : makeChoice querySelector document T r with
    | none => simp [hc] at h
    | some c =>
      cases hcs : makeChoices querySelector document T radios with
      | none => simp [hc, hcs] at h
      | some cs' =>
        simp only [hc, hcs, Option.map_some', Option.some.injEq] at h
        have hr : extractChoiceText querySelector document r T = some c.text := by
          unfold makeChoice at hc
          cases ht : extractChoiceText querySelector document r T with
          | none => simp [ht] at hc
          | some t =>
            simp only [ht, Option.map_some', Option.some.injEq] at hc
            rw [← hc]
        rw [← h, List.map_cons, List.map_cons, ih cs' hcs, hr]

/-- The choices are built when `extractChoiceText` throws for no radio. -/
theorem makeChoices_isSome (querySelector : Str → QueryResult) (document : Node) (T : Str)
    (radios : List Handle)
    (h : ∀ r ∈ radios, extractChoiceText querySelector document r T ≠ none) :
    ∃ cs, makeChoices querySelector document T radios = some cs := by
  induction radios with
  | nil => exact ⟨[], rfl⟩
  | cons r radios ih =>
    obtain ⟨cs, hcs⟩ := ih (fun x hx => h x (List.mem_cons_of_mem _ hx))
    cases ht : extractChoiceText querySelector document r T with
    | none => exact absurd ht (h r (List.mem_cons_self _ _))
    | some t =>
      exact ⟨{ element := (closestLabel document r).orElse (fun _ => parentElement r),
               text := t, inputElement := r } :: cs,
        by simp [makeChoices, makeChoice, ht, hcs]⟩

theorem groupQuestion_choices (querySelector : Str → QueryResult) (document : Node)
    (radios : List Handle) (e : Handle) (cs : List Choice)
    (h : makeChoices querySelector document (trimmedText document e) radios = some cs) :
    (groupQuestion querySelector document radios e).choices = cs := by
  simp [groupQuestion, h]

/-- One round of the loop over the radio groups that does not throw: it leaves the
questions alone and adds at most the text of the group to the texts seen, or it pushes the
question of the group. -/
theorem processGroup_cases (querySelector : Str → QueryResult) (document : Node)
    (groups : RadioGroups) (st st' : ScanState) (k : Str)
    (h : processGroup querySelector document groups st k = some st') :
    (st'.questions = st.questions ∧ st'.seenQuestionTexts = st.seenQuestionTexts) ∨
    (∃ e, groupQuestionElement document groups k = some e ∧
      2 ≤ ((groups.lookup k).getD []).length ∧
      trimmedText document e ∉ st.seenQuestionTexts ∧
      st'.questions = st.questions ∧
      st'.seenQuestionTexts = trimmedText document e :: st.seenQuestionTexts) ∨
    (∃ e cs, groupQuestionElement document groups k = some e ∧
      2 ≤ ((groups.lookup k).getD []).length ∧
      trimmedText document e ∉ st.seenQuestionTexts ∧
      10 ≤ jsLength (trimmedText document e) ∧ jsLength (trimmedText document e) ≤ 1000 ∧
      makeChoices querySelector document (trimmedText document e)
        ((groups.lookup k).getD []) = some cs ∧
      st'.questions
        = st.questions ++ [groupQuestion querySelector document ((groups.lookup k).getD []) e] ∧
      st'.seenQuestionTexts = trimmedText document e :: st.seenQuestionTexts) := by
  by_cases h1 : ((groups.lookup k).getD []).length < 2
  · simp only [processGroup, if_pos h1, Option.some.injEq] at h
    rw [← h]; exact Or.inl ⟨rfl, rfl⟩
  by_cases h2 : k ∈ st.processedRadioGroups
  · simp only [processGroup, if_neg h1, if_pos h2, Option.some.injEq] at h
    rw [← h]; exact Or.inl ⟨rfl, rfl⟩
  cases hh : ((groups.lookup k).getD []).head? with
  | none =>
    simp only [processGroup, if_neg h1, if_neg h2, hh, Option.some.injEq] at h
    rw [← h]; exact Or.inl ⟨rfl, rfl⟩
  | some firstRadio =>
    cases hf : findQuestionTextNear document firstRadio with
    | none =>
      simp only [processGroup, if_neg h1, if_neg h2, hh, hf, Option.some.injEq] at h
      rw [← h]; exact Or.inl ⟨rfl, rfl⟩
    | some e =>
      have hge : groupQuestionElement document groups k = some e := by
        simp [groupQuestionElement, hh, hf]
      by_cases h3 : trimmedText document e ∈ st.seenQuestionTexts
      · simp only [processGroup, if_neg h1, if_neg h2, hh, hf, if_pos h3,
          Option.some.injEq] at h
        rw [← h]; exact Or.inl ⟨rfl, rfl⟩
      by_cases h4 : jsLength (trimmedText document e) < 10 ∨
          jsLength (trimmedText document e) > 1000
      · simp only [processGroup, if_neg h1, if_neg h2, hh, hf, if_neg h3, if_pos h4,
          Option.some.injEq] at h
        rw [← h]; exact Or.inl ⟨rfl, rfl⟩
      cases hm : makeChoices querySelector document (trimmedText document e)
          ((groups.lookup k).getD []) with
      | none =>
        simp only [processGroup, if_neg h1, if_neg h2, hh, hf, if_neg h3, if_neg h4, hm] at h
        exact absurd h (by simp)
      | some cs =>
        by_cases h5 : cs.all invalidChoice = true
        · simp only [processGroup, if_neg h1, if_neg h2, hh, hf, if_neg h3, if_neg h4, hm,
            if_pos h5, Option.some.injEq] at h
          rw [← h]
          exact Or.inr (Or.inl ⟨e, hge, by omega, h3, rfl, rfl⟩)
        · simp only [processGroup, if_neg h1, if_neg h2, hh, hf, if_neg h3, if_neg h4, hm,
            if_neg h5, Option.some.injEq] at h
          rw [← h]
          refine Or.inr (Or.inr ⟨e, cs, hge, by omega, h3, by omega, by omega, hm, ?_, rfl⟩)
          simp [groupQuestion, hm]

/-- One round of the loop over the text inputs: it changes nothing, or it pushes the
question of the input. -/
theorem processInput_cases (toLowerCase : Str → Str) (document : Node) (st : ScanState)
    (input : Handle) :
    processInput toLowerCase document st input = st ∨
    (∃ e, (nodeAt document input).any (skippedInput toLowerCase) = false ∧
      findQuestionTextNear document input = some e ∧
      trimmedText document e ∉ st.seenQuestionTexts ∧
      looksLikeQuestion (trimmedText document e) = true ∧
      15 ≤ jsLength (trimmedText document e) ∧ jsLength (trimmedText document e) ≤ 1000 ∧
      processInput toLowerCase document st input
        = { questions := st.questions ++ [inputQuestion document input e],
            seenQuestionTexts := trimmedText document e :: st.seenQuestionTexts,
            processedRadioGroups := st.processedRadioGroups }) := by
  by_cases h1 : (nodeAt document input).any (skippedInput toLowerCase) = true
  · left
    simp only [processInput, if_pos h1]
  cases hf : findQuestionTextNear document input with
  | none =>
    left
    simp only [processInput, if_neg h1, hf]
  | some e =>
    by_cases h3 : trimmedText document e ∈ st.seenQuestionTexts
    · left
      simp only [processInput, if_neg h1, hf, if_pos h3]
    by_cases h4 : (!looksLikeQuestion (trimmedText document e)) = true ∨
        jsLength (trimmedText document e) < 15 ∨ jsLength (trimmedText document e) > 1000
    · left
      simp only [processInput, if_neg h1, hf, if_neg h3, if_pos h4]
    · right
      refine ⟨e, by simpa using h1, rfl, h3, ?_, by omega, by omega, ?_⟩
      · by_contra hl
        apply h4
        left
        simpa using hl
      · simp only [processInput, if_neg h1, hf, if_neg h3, if_neg h4, inputQuestion]

theorem forEachGroup_cons (querySelector : Str → QueryResult) (document : Node)
    (groups : RadioGroups) (st st' : ScanState) (k : Str) (ks : List Str)
    (h : forEachGroup querySelector document groups st (k :: ks) = some st') :
    ∃ st₁, processGroup querySelector document groups st k = some st₁ ∧
      forEachGroup querySelector document groups st₁ ks = some st' := by
  simp only [forEachGroup] at h
  cases hp : processGroup querySelector document groups st k with
  | none => simp [hp] at h
  | some st₁ => exact ⟨st₁, rfl, by simpa [hp] using h⟩

/-- A property of the questions of the radio groups holds for every question the loop over
the groups pushes. -/
theorem forEachGroup_forall (Q : Question → Prop) (querySelector : Str → QueryResult)
    (document : Node) (groups : RadioGroups)
    (hQ : ∀ k e cs, groupQuestionElement document groups k = some e →
      2 ≤ ((groups.lookup k).getD []).length →
      10 ≤ jsLength (trimmedText document e) → jsLength (trimmedText document e) ≤ 1000 →
      makeChoices querySelector document (trimmedText document e)
        ((groups.lookup k).getD []) = some cs →
      Q (groupQuestion querySelector document ((groups.lookup k).getD []) e))
    (ks : List Str) (st st' : ScanState)
    (h : forEachGroup querySelector document groups st ks = some st')
    (hst : ∀ q ∈ st.questions, Q q) :
    ∀ q ∈ st'.questions, Q q := by
  induction ks generalizing st with
  | nil =>
    simp only [forEachGroup, Option.some.injEq] at h
    rw [← h]; exact hst
  | cons k ks ih =>
    obtain ⟨st₁, hp, hrest⟩ := forEachGroup_cons querySelector document groups st st' k ks h
    apply ih st₁ hrest
    rcases processGroup_cases querySelector document groups st st₁ k hp with h | ⟨e, _, _, _, h, _⟩ |
      ⟨e, cs, he, h2, _, h10, h1000, hm, h, _⟩
    · rw [h.1]; exact hst
    · rw [h]; exact hst
    · rw [h]
      intro q hq
      rcases List.mem_append.mp hq with hq | hq
      · exact hst q hq
      · rw [List.mem_singleton.mp hq]
        exact hQ k e cs he h2 h10 h1000 hm

/-- A property of the questions of the text inputs holds for every question the loop over
the inputs pushes. -/
theorem foldl_processInput_forall (Q : Question → Prop) (toLowerCase : Str → Str)
    (document : Node)
    (hQ : ∀ input e, (nodeAt document input).any (skippedInput toLowerCase) = false →
      findQuestionTextNear document input = some e →
      15 ≤ jsLength (trimmedText document e) → jsLength (trimmedText document e) ≤ 1000 →
      Q (inputQuestion document input e))
    (inputs : List Handle) (st : ScanState) (hst : ∀ q ∈ st.questions, Q q) :
    ∀ q ∈ (inputs.foldl (processInput toLowerCase document) st).questions, Q q := by
  induction inputs generalizing st with
  | nil => simpa using hst
  | cons i inputs ih =>
    rw [List.foldl_cons]
    apply ih
    rcases processInput_cases toLowerCase document st i with h |
      ⟨e, hs, he, _, _, h15, h1000, h⟩
    · rw [h]; exact hst
    · rw [h]
      intro q hq
      rcases List.mem_append.mp hq with hq | hq
      · exact hst q hq
      · rw [List.mem_singleton.mp hq]
        exact hQ i e hs he h15 h1000

/-- What `findQuestions` returns, when it returns: the questions after both loops. -/
theorem findQuestions_eq_some (querySelector : Str → QueryResult) (toLowerCase : Str → Str)
    (document : Node) (qs : List Question)
    (h : findQuestions querySelector toLowerCase document = some qs) :
    ∃ groups st, groupRadios document [] (querySelectorAll document isRadio) = some groups ∧
      forEachGroup querySelector document groups ⟨[], [], []⟩ (objectKeys groups) = some st ∧
      qs = ((querySelectorAll document isTextInput).foldl
        (processInput toLowerCase document) st).questions := by
  unfold findQuestions at h
  cases hg : groupRadios document [] (querySelectorAll document isRadio) with
  | none => simp [hg] at h
  | some groups =>
    cases hs : scanRadioGroups querySelector document groups with
    | none => simp [hg, hs] at h
    | some st =>
      simp only [hg, hs, Option.some.injEq] at h
      exact ⟨groups, st, rfl, hs, h.symm⟩

/-- A property that holds for the questions of the radio groups and for the questions of
the text inputs holds for every question `findQuestions` returns. -/
theorem findQuestions_forall (Q : Question → Prop) (querySelector : Str → QueryResult)
    (toLowerCase : Str → Str) (document : Node)
    (hG : ∀ (radios : List Handle) (e : Handle) (cs : List Choice), 2 ≤ radios.length →
      10 ≤ jsLength (trimmedText document e) → jsLength (trimmedText document e) ≤ 1000 →
      makeChoices querySelector document (trimmedText document e) radios = some cs →
      Q (groupQuestion querySelector document radios e))
    (hI : ∀ input e, (nodeAt document input).any (skippedInput toLowerCase) = false →
      15 ≤ jsLength (trimmedText document e) → jsLength (trimmedText document e) ≤ 1000 →
      Q (inputQuestion document input e))
    (qs : List Question) (h : findQuestions querySelector toLowerCase document = some qs) :
    ∀ q ∈ qs, Q q := by
  obtain ⟨groups, st, _, hs, hqs⟩ :=
    findQuestions_eq_some querySelector toLowerCase document qs h
  rw [hqs]
  apply foldl_processInput_forall Q toLowerCase document
    (fun input e hs _ h15 h1000 => hI input e hs h15 h1000)
  apply forEachGroup_forall Q querySelector document groups
    (fun k e cs _ h2 h10 h1000 hm => hG _ e cs h2 h10 h1000 hm) _ _ _ hs
  simp

/-! ## C6: the invariant of the questions -/

/-- C6: every question `findQuestions` returns is a multiple-choice question whose text has
between 10 and 1000 code units and which has at least 2 choices, or a fill-in question
whose text has between 15 and 1000 code units and which has no choices. -/
theorem findQuestions_invariant (querySelector : Str → QueryResult) (toLowerCase : Str → Str)
    (document : Node) (qs : List Question)
    (h : findQuestions querySelector toLowerCase document = some qs) :
    ∀ q ∈ qs,
      (q.type = .multipleChoice ∧ 10 ≤ jsLength q.text ∧ jsLength q.text ≤ 1000 ∧
        2 ≤ q.choices.length) ∨
      (q.type = .fillIn ∧ 15 ≤ jsLength q.text ∧ jsLength q.text ≤ 1000 ∧ q.choices = []) := by
  refine findQuestions_forall (fun q =>
    (q.type = .multipleChoice ∧ 10 ≤ jsLength q.text ∧ jsLength q.text ≤ 1000 ∧
      2 ≤ q.choices.length) ∨
    (q.type = .fillIn ∧ 15 ≤ jsLength q.text ∧ jsLength q.text ≤ 1000 ∧ q.choices = []))
    querySelector toLowerCase document ?_ ?_ qs h
  · intro radios e cs h2 h10 h1000 hm
    left
    refine ⟨rfl, h10, h1000, ?_⟩
    rw [groupQuestion_choices querySelector document radios e cs hm,
      makeChoices_length querySelector document _ radios cs hm]
    exact h2
  · intro input e _ h15 h1000
    right
    exact ⟨rfl, h15, h1000, rfl⟩

/-- C6 at `mixedPage`, whose questions are one multiple-choice and one fill-in question. -/
theorem findQuestions_invariant_witness :
    findQuestions throwingQuerySelector asciiLower mixedPage
      = some [groupQuestion throwingQuerySelector mixedPage [[0, 1, 0], [0, 2, 0]] [0, 0],
              inputQuestion mixedPage [4, 0] [3, 0]] ∧
    (((groupQuestion throwingQuerySelector mixedPage [[0, 1, 0], [0, 2, 0]] [0, 0]).type
          = .multipleChoice ∧
        10 ≤ jsLength
          (groupQuestion throwingQuerySelector mixedPage [[0, 1, 0], [0, 2, 0]] [0, 0]).text ∧
        jsLength (groupQuestion throwingQuerySelector mixedPage [[0, 1, 0], [0, 2, 0]]
          [0, 0]).text ≤ 1000 ∧
        2 ≤ (groupQuestion throwingQuerySelector mixedPage [[0, 1, 0], [0, 2, 0]]
          [0, 0]).choices.length) ∨
      ((groupQuestion throwingQuerySelector mixedPage [[0, 1, 0], [0, 2, 0]] [0, 0]).type
          = .fillIn ∧
        15 ≤ jsLength
          (groupQuestion throwingQuerySelector mixedPage [[0, 1, 0], [0, 2, 0]] [0, 0]).text ∧
        jsLength (groupQuestion throwingQuerySelector mixedPage [[0, 1, 0], [0, 2, 0]]
          [0, 0]).text ≤ 1000 ∧
        (groupQuestion throwingQuerySelector mixedPage [[0, 1, 0], [0, 2, 0]]
          [0, 0]).choices = [])) ∧
    (((inputQuestion mixedPage [4, 0] [3, 0]).type = .multipleChoice ∧
        10 ≤ jsLength (inputQuestion mixedPage [4, 0] [3, 0]).text ∧
        jsLength (inputQuestion mixedPage [4, 0] [3, 0]).text ≤ 1000 ∧
        2 ≤ (inputQuestion mixedPage [4, 0] [3, 0]).choices.length) ∨
      ((inputQuestion mixedPage [4, 0] [3, 0]).type = .fillIn ∧
        15 ≤ jsLength (inputQuestion mixedPage [4, 0] [3, 0]).text ∧
        jsLength (inputQuestion mixedPage [4, 0] [3, 0]).text ≤ 1000 ∧
        (inputQuestion mixedPage [4, 0] [3, 0]).choices = [])) :=
  ⟨by decide,
   findQuestions_invariant throwingQuerySelector asciiLower mixedPage
    [groupQuestion throwingQuerySelector mixedPage [[0, 1, 0], [0, 2, 0]] [0, 0],
      inputQuestion mixedPage [4, 0] [3, 0]]
    (by decide) _ (List.mem_cons_self _ _),
   findQuestions_invariant throwingQuerySelector asciiLower mixedPage
    [groupQuestion throwingQuerySelector mixedPage [[0, 1, 0], [0, 2, 0]] [0, 0],
      inputQuestion mixedPage [4, 0] [3, 0]]
    (by decide) _ (List.mem_cons_of_mem _ (List.mem_cons_self _ _))⟩

/-! ## C9: the inputs that are skipped -/

/-- C9, as the claim states it, fails: the `name` attribute of the text input of
`emailNamePage` is `email`, and `findQuestions` returns a fill-in question on that
input. -/
theorem email_name_not_skipped :
    (nodeAt emailNamePage [1, 0]).map (fun n => (isTextInput n, n.reflect "name".toList))
      = some (true, "email".toList) ∧
    findQuestions throwingQuerySelector asciiLower emailNamePage
      = some [inputQuestion emailNamePage [1, 0] [0, 0]] := by
  decide

/-- C9 (amended): a control whose lower-cased placeholder includes `search`, `email` or
`name`, or whose lower-cased `name` attribute includes `search`, is the input of no
question `findQuestions` returns. -/
theorem findQuestions_skips_input (querySelector : Str → QueryResult)
    (toLowerCase : Str → Str) (document : Node)
    (qs : List Question) (input : Handle) (n : Node)
    (h : findQuestions querySelector toLowerCase document = some qs)
    (hn : nodeAt document input = some n)
    (hskip : includes (toLowerCase (n.reflect "placeholder".toList)) "search".toList = true ∨
      includes (toLowerCase (n.reflect "placeholder".toList)) "email".toList = true ∨
      includes (toLowerCase (n.reflect "placeholder".toList)) "name".toList = true ∨
      includes (toLowerCase (n.reflect "name".toList)) "search".toList = true) :
    ∀ q ∈ qs, q.inputElement ≠ some input := by
  refine findQuestions_forall (fun q => q.inputElement ≠ some input) querySelector toLowerCase
    document ?_ ?_ qs h
  · intro radios e cs _ _ _ _
    simp [groupQuestion]
  · intro i e hs _ _ heq
    have hi : i = input := by simpa [inputQuestion] using heq
    subst hi
    rw [hn] at hs
    simp only [Option.any_some, skippedInput, Bool.or_eq_false_iff] at hs
    obtain ⟨⟨⟨h1, h2⟩, h3⟩, h4⟩ := hs
    rcases hskip with h | h | h | h
    · rw [h1] at h; exact absurd h (by decide)
    · rw [h2] at h; exact absurd h (by decide)
    · rw [h3] at h; exact absurd h (by decide)
    · rw [h4] at h; exact absurd h (by decide)

/-- C9 (amended) at `searchBoxPage`: the input with the placeholder `Search the site` is
the input of no question returned; the question returned is on the other input. -/
theorem findQuestions_skips_input_witness :
    findQuestions throwingQuerySelector asciiLower searchBoxPage
      = some [inputQuestion searchBoxPage [3, 0] [2, 0]] ∧
    (inputQuestion searchBoxPage [3, 0] [2, 0]).inputElement ≠ some [1, 0] :=
  ⟨by decide,
   findQuestions_skips_input throwingQuerySelector asciiLower searchBoxPage
    [inputQuestion searchBoxPage [3, 0] [2, 0]] [1, 0]
    (textInput [("placeholder", "Search the site")]) (by decide) rfl
    (Or.inl (by decide)) _ (List.mem_cons_self _ _)⟩

/-! ## C8: the order of the questions -/

theorem firstRadio_groupQuestion (querySelector : Str → QueryResult) (document : Node)
    (radios : List Handle) (e : Handle) (cs : List Choice)
    (h : makeChoices querySelector document (trimmedText document e) radios = some cs) :
    firstRadio (groupQuestion querySelector document radios e) = radios.head? := by
  rw [firstRadio, groupQuestion_choices querySelector document radios e cs h,
    ← makeChoices_inputs querySelector document _ radios cs h]
  cases cs <;> rfl

/-- The loop over the radio groups appends multiple-choice questions, in the order of the
groups it runs over. -/
theorem forEachGroup_order (querySelector : Str → QueryResult) (document : Node)
    (groups : RadioGroups) (ks : List Str) (st st' : ScanState)
    (h : forEachGroup querySelector document groups st ks = some st') :
    ∃ new, st'.questions = st.questions ++ new ∧
      (∀ q ∈ new, q.type = .multipleChoice) ∧
      List.Sublist (new.map firstRadio)
        (ks.map (fun k => ((groups.lookup k).getD []).head?)) := by
  induction ks generalizing st with
  | nil =>
    simp only [forEachGroup, Option.some.injEq] at h
    rw [← h]
    exact ⟨[], by simp, by simp, by simp⟩
  | cons k ks ih =>
    obtain ⟨st₁, hp, hrest⟩ := forEachGroup_cons querySelector document groups st st' k ks h
    obtain ⟨new, hq, ht, hs⟩ := ih st₁ hrest
    rcases processGroup_cases querySelector document groups st st₁ k hp with h | ⟨e, _, _, _, h, _⟩ |
      ⟨e, cs, _, _, _, _, _, hm, h, _⟩
    · refine ⟨new, by rw [hq, h.1], ht, ?_⟩
      rw [List.map_cons]
      exact List.Sublist.cons _ hs
    · refine ⟨new, by rw [hq, h], ht, ?_⟩
      rw [List.map_cons]
      exact List.Sublist.cons _ hs
    · refine ⟨groupQuestion querySelector document ((groups.lookup k).getD []) e :: new,
        ?_, ?_, ?_⟩
      · rw [hq, h]; simp
      · intro q hq'
        rcases List.mem_cons.mp hq' with hq' | hq'
        · rw [hq']; rfl
        · exact ht q hq'
      · rw [List.map_cons, List.map_cons,
          firstRadio_groupQuestion querySelector document _ e cs hm]
        exact List.Sublist.cons₂ _ hs

/-- The loop over the text inputs appends fill-in questions, in the order of the inputs it
runs over. -/
theorem foldl_processInput_order (toLowerCase : Str → Str) (document : Node)
    (inputs : List Handle) (st : ScanState) :
    ∃ new, (inputs.foldl (processInput toLowerCase document) st).questions
        = st.questions ++ new ∧
      (∀ q ∈ new, q.type = .fillIn) ∧
      List.Sublist (new.map (·.inputElement)) (inputs.map some) := by
  induction inputs generalizing st with
  | nil => exact ⟨[], by simp, by simp, by simp⟩
  | cons i inputs ih =>
    rw [List.foldl_cons]
    obtain ⟨new, hq, ht, hs⟩ := ih (processInput toLowerCase document st i)
    rcases processInput_cases toLowerCase document st i with h | ⟨e, _, _, _, _, _, _, h⟩
    · refine ⟨new, by rw [hq, h], ht, ?_⟩
      rw [List.map_cons]
      exact List.Sublist.cons _ hs
    · refine ⟨inputQuestion document i e :: new, ?_, ?_, ?_⟩
      · rw [hq, h]; simp
      · intro q hq'
        rcases List.mem_cons.mp hq' with hq' | hq'
        · rw [hq']; rfl
        · exact ht q hq'
      · rw [List.map_cons, List.map_cons]
        exact List.Sublist.cons₂ _ hs
theorem pushRadio_keys (groups : RadioGroups) (name : Str) (radio : Handle) :
    (pushRadio groups name radio).map Prod.fst
      = if name ∈ groups.map Prod.fst then groups.map Prod.fst
        else groups.map Prod.fst ++ [name] := by
  induction groups with
  | nil => simp [pushRadio]
  | cons g groups ih =>
    obtain ⟨k, radios⟩ := g
    by_cases hk : k = name
    · simp [pushRadio, hk]
    · have hk' : ¬ name = k := fun h => hk h.symm
      simp only [pushRadio, if_neg hk, List.map_cons, ih, List.mem_cons, hk', false_or]
      split_ifs <;> simp

theorem pushRadio_heads (groups : RadioGroups) (name : Str) (radio : Handle)
    (hne : ∀ g ∈ groups, g.2 ≠ []) :
    (pushRadio groups name radio).map (fun g => g.2.head?)
      = if name ∈ groups.map Prod.fst then groups.map (fun g => g.2.head?)
        else groups.map (fun g => g.2.head?) ++ [some radio] := by
  induction groups with
  | nil => simp [pushRadio]
  | cons g groups ih =>
    obtain ⟨k, radios⟩ := g
    have hrad : radios ≠ [] := hne (k, radios) (List.mem_cons_self _ _)
    have ih' := ih (fun g hg => hne g (List.mem_cons_of_mem _ hg))
    by_cases hk : k = name
    · simp [pushRadio, hk, List.head?_append_of_ne_nil _ hrad]
    · have hk' : ¬ name = k := fun h => hk h.symm
      simp only [pushRadio, if_neg hk, List.map_cons, ih', List.mem_cons, hk', false_or]
      split_ifs <;> simp

theorem pushRadio_nonempty (groups : RadioGroups) (name : Str) (radio : Handle)
    (hne : ∀ g ∈ groups, g.2 ≠ []) : ∀ g ∈ pushRadio groups name radio, g.2 ≠ [] := by
  induction groups with
  | nil => simp [pushRadio]
  | cons g groups ih =>
    obtain ⟨k, radios⟩ := g
    have ih' := ih (fun g hg => hne g (List.mem_cons_of_mem _ hg))
    by_cases hk : k = name
    · intro g hg
      simp only [pushRadio, if_pos hk, List.mem_cons] at hg
      rcases hg with hg | hg
      · rw [hg]; simp
      · exact hne g (List.mem_cons_of_mem _ hg)
    · intro g hg
      simp only [pushRadio, if_neg hk, List.mem_cons] at hg
      rcases hg with hg | hg
      · rw [hg]; exact hne (k, radios) (List.mem_cons_self _ _)
      · exact ih' g hg

/-- The groups built from the radios have distinct names and no empty array, and their
first radios come in the order of the radios. -/
theorem groupRadios_invariant (document : Node) (radios : List Handle) (groups : RadioGroups)
    (seen : List Handle) (out : RadioGroups)
    (hk : (groups.map Prod.fst).Nodup) (hne : ∀ g ∈ groups, g.2 ≠ [])
    (hs : List.Sublist (groups.map (fun g => g.2.head?)) (seen.map some))
    (h : groupRadios document groups radios = some out) :
    (out.map Prod.fst).Nodup ∧ (∀ g ∈ out, g.2 ≠ []) ∧
      List.Sublist (out.map (fun g => g.2.head?)) ((seen ++ radios).map some) := by
  induction radios generalizing groups seen with
  | nil =>
    simp only [groupRadios, Option.some.injEq] at h
    subst h
    exact ⟨hk, hne, by simpa using hs⟩
  | cons r radios ih =>
    have hseen : seen ++ r :: radios = (seen ++ [r]) ++ radios := by simp
    rw [hseen]
    simp only [groupRadios] at h
    split_ifs at h with h1 h2
    · apply ih groups (seen ++ [r]) hk hne _ h
      rw [List.map_append]
      exact hs.trans (List.sublist_append_left _ _)
    · apply ih _ (seen ++ [r]) _ _ _ h
      · rw [pushRadio_keys]
        split_ifs with hm
        · exact hk
        · exact List.Nodup.append hk (List.nodup_singleton _) (by simpa using hm)
      · exact pushRadio_nonempty groups _ r hne
      · rw [pushRadio_heads groups _ r hne, List.map_append]
        split_ifs with hm
        · exact hs.trans (List.sublist_append_left _ _)
        · exact List.Sublist.append hs (List.Sublist.refl _)

theorem lookup_of_mem_nodup (groups : RadioGroups) (hk : (groups.map Prod.fst).Nodup) :
    ∀ g ∈ groups, groups.lookup g.1 = some g.2 := by
  induction groups with
  | nil => simp
  | cons g₀ groups ih =>
    obtain ⟨k₀, r₀⟩ := g₀
    rw [List.map_cons, List.nodup_cons] at hk
    intro g hg
    rcases List.mem_cons.mp hg with hg | hg
    · rw [hg]; simp [List.lookup]
    · have hne : g.1 ≠ k₀ := by
        intro heq
        apply hk.1
        rw [← heq]
        exact List.mem_map.mpr ⟨g, hg, rfl⟩
      have hbeq : (g.1 == k₀) = false := by simpa using hne
      rw [List.lookup, hbeq]
      exact ih hk.2 g hg

/-- Without array indices among the names, `Object.keys` lists the names in the order of
their creation. -/
theorem objectKeys_of_no_arrayIndex (groups : RadioGroups)
    (h : ∀ g ∈ groups, arrayIndex g.1 = none) : objectKeys groups = groups.map Prod.fst := by
  have h1 : groups.filterMap (fun g => (arrayIndex g.1).map (fun n => (n, g.1))) = [] := by
    rw [List.filterMap_eq_nil_iff]
    intro g hg
    simp [h g hg]
  have h2 : groups.filter (fun g => (arrayIndex g.1).isNone) = groups := by
    rw [List.filter_eq_self]
    intro g hg
    simp [h g hg]
  simp [objectKeys, h1, h2]

/-- C8, as the claim states it, fails: in `digitNamesPage` the first radio of the group
`"2"` comes before the first radio of the group `"1"`, and the question of the group `"1"`
is returned first. -/
theorem digit_names_order :
    querySelectorAll digitNamesPage isRadio = [[0, 1, 0], [0, 2, 0], [0, 4, 0], [0, 5, 0]] ∧
    groupRadios digitNamesPage [] (querySelectorAll digitNamesPage isRadio)
      = some [("2".toList, [[0, 1, 0], [0, 2, 0]]), ("1".toList, [[0, 4, 0], [0, 5, 0]])] ∧
    findQuestions throwingQuerySelector asciiLower digitNamesPage
      = some [groupQuestion throwingQuerySelector digitNamesPage [[0, 4, 0], [0, 5, 0]] [3, 0],
              groupQuestion throwingQuerySelector digitNamesPage [[0, 1, 0], [0, 2, 0]]
                [0, 0]] := by
  decide

/-- C8 (amended): the questions `findQuestions` returns are multiple-choice questions
followed by fill-in questions; the multiple-choice questions come in the order in which
`Object.keys` lists their groups, array indices first in ascending order, which is the
document order of the first radio of the group when no group name is an array index; the
fill-in questions come in the document order of their input. -/
theorem findQuestions_order (querySelector : Str → QueryResult) (toLowerCase : Str → Str)
    (document : Node)
    (qs : List Question) (h : findQuestions querySelector toLowerCase document = some qs) :
    ∃ groups mc fi,
      groupRadios document [] (querySelectorAll document isRadio) = some groups ∧
      qs = mc ++ fi ∧
      (∀ q ∈ mc, q.type = .multipleChoice) ∧ (∀ q ∈ fi, q.type = .fillIn) ∧
      List.Sublist (mc.map firstRadio)
        ((objectKeys groups).map (fun k => ((groups.lookup k).getD []).head?)) ∧
      ((∀ g ∈ groups, arrayIndex g.1 = none) →
        List.Sublist (mc.map firstRadio) ((querySelectorAll document isRadio).map some)) ∧
      List.Sublist (fi.map (·.inputElement))
        ((querySelectorAll document isTextInput).map some) := by
  obtain ⟨groups, st, hg, hs, hqs⟩ :=
    findQuestions_eq_some querySelector toLowerCase document qs h
  obtain ⟨mc, hmc, hmct, hmcs⟩ :=
    forEachGroup_order querySelector document groups (objectKeys groups) ⟨[], [], []⟩ st hs
  obtain ⟨fi, hfi, hfit, hfis⟩ := foldl_processInput_order toLowerCase document
    (querySelectorAll document isTextInput) st
  refine ⟨groups, mc, fi, hg, ?_, hmct, hfit, hmcs, ?_, hfis⟩
  · rw [hqs, hfi, hmc]
    simp
  · intro hno
    obtain ⟨hnodup, _, hsub⟩ := groupRadios_invariant document
      (querySelectorAll document isRadio) [] [] groups (by simp) (by simp) (by simp) hg
    have hkeys : (objectKeys groups).map (fun k => ((groups.lookup k).getD []).head?)
        = groups.map (fun g => g.2.head?) := by
      rw [objectKeys_of_no_arrayIndex groups hno, List.map_map]
      apply List.map_congr_left
      intro g hg'
      simp [lookup_of_mem_nodup groups hnodup g hg']
    rw [hkeys] at hmcs
    exact hmcs.trans (by simpa using hsub)

/-- C8 (amended) at `mixedPage`, whose one group is named `q1`. -/
theorem findQuestions_order_witness :
    ∃ groups mc fi,
      groupRadios mixedPage [] (querySelectorAll mixedPage isRadio) = some groups ∧
      [groupQuestion throwingQuerySelector mixedPage [[0, 1, 0], [0, 2, 0]] [0, 0],
        inputQuestion mixedPage [4, 0] [3, 0]] = mc ++ fi ∧
      (∀ q ∈ mc, q.type = .multipleChoice) ∧ (∀ q ∈ fi, q.type = .fillIn) ∧
      List.Sublist (mc.map firstRadio)
        ((objectKeys groups).map (fun k => ((groups.lookup k).getD []).head?)) ∧
      ((∀ g ∈ groups, arrayIndex g.1 = none) →
        List.Sublist (mc.map firstRadio) ((querySelectorAll mixedPage isRadio).map some)) ∧
      List.Sublist (fi.map (·.inputElement))
        ((querySelectorAll mixedPage isTextInput).map some) :=
  findQuestions_order throwingQuerySelector asciiLower mixedPage _ (by decide)

/-! ## C7: two radio groups with the same question text -/

/-- With a `selectorSafe` id the query of Method 2 does not throw, and neither does
`extractChoiceText`. -/
theorem extractChoiceText_ne_none (querySelector : Str → QueryResult) (document : Node)
    (radio : Handle) (T : Str) (h : selectorSafe (idAt document radio) = true) :
    extractChoiceText querySelector document radio T ≠ none := by
  have hl : labelFor querySelector document (idAt document radio) ≠ none := by
    simp [labelFor, h]
  unfold extractChoiceText
  simp only
  split
  · rename_i heq
    split at heq
    · exact absurd heq hl
    · exact absurd heq (by simp)
  · simp

theorem pushRadio_mem (groups : RadioGroups) (name : Str) (radio : Handle) :
    ∀ g ∈ pushRadio groups name radio, ∀ r ∈ g.2, r = radio ∨ ∃ g' ∈ groups, r ∈ g'.2 := by
  induction groups with
  | nil =>
    intro g hg r hr
    simp only [pushRadio, List.mem_singleton] at hg
    subst hg
    left
    simpa using hr
  | cons g₀ groups ih =>
    obtain ⟨k, radios⟩ := g₀
    intro g hg r hr
    by_cases hk : k = name
    · simp only [pushRadio, if_pos hk, List.mem_cons] at hg
      rcases hg with hg | hg
      · subst hg
        rcases List.mem_append.mp hr with hr | hr
        · exact Or.inr ⟨(k, radios), List.mem_cons_self _ _, hr⟩
        · left; simpa using hr
      · exact Or.inr ⟨g, List.mem_cons_of_mem _ hg, hr⟩
    · simp only [pushRadio, if_neg hk, List.mem_cons] at hg
      rcases hg with hg | hg
      · subst hg
        exact Or.inr ⟨(k, radios), List.mem_cons_self _ _, hr⟩
      · rcases ih g hg r hr with h | ⟨g', hg', hr'⟩
        · exact Or.inl h
        · exact Or.inr ⟨g', List.mem_cons_of_mem _ hg', hr'⟩

/-- Every radio of a group is one of the radios that were grouped. -/
theorem groupRadios_mem (document : Node) (radios : List Handle) (groups out : RadioGroups)
    (h : groupRadios document groups radios = some out) :
    ∀ g ∈ out, ∀ r ∈ g.2, r ∈ radios ∨ ∃ g' ∈ groups, r ∈ g'.2 := by
  induction radios generalizing groups with
  | nil =>
    simp only [groupRadios, Option.some.injEq] at h
    subst h
    intro g hg r hr
    exact Or.inr ⟨g, hg, hr⟩
  | cons x radios ih =>
    simp only [groupRadios] at h
    intro g hg r hr
    split_ifs at h with h1 h2
    · rcases ih groups h g hg r hr with h' | h'
      · exact Or.inl (List.mem_cons_of_mem _ h')
      · exact Or.inr h'
    · rcases ih _ h g hg r hr with h' | ⟨g', hg', hr'⟩
      · exact Or.inl (List.mem_cons_of_mem _ h')
      · rcases pushRadio_mem groups _ x g' hg' r hr' with h'' | h''
        · exact Or.inl (by simp [h''])
        · exact Or.inr h''

theorem lookup_mem (groups : RadioGroups) (k : Str) (radios : List Handle)
    (h : groups.lookup k = some radios) : (k, radios) ∈ groups := by
  induction groups with
  | nil => simp at h
  | cons g groups ih =>
    obtain ⟨k', r'⟩ := g
    by_cases hk : k = k'
    · subst hk
      simp only [List.lookup, beq_self_eq_true, Option.some.injEq] at h
      subst h
      exact List.mem_cons_self _ _
    · have hbeq : (k == k') = false := by simpa using hk
      rw [List.lookup, hbeq] at h
      exact List.mem_cons_of_mem _ (ih h)

/-- The radios of every group have a `selectorSafe` id when all radios of the document
have one. -/
theorem group_radios_safe (document : Node) (groups : RadioGroups)
    (hg : groupRadios document [] (querySelectorAll document isRadio) = some groups)
    (hsafe : ∀ r ∈ querySelectorAll document isRadio, selectorSafe (idAt document r) = true)
    (k : Str) : ∀ r ∈ (groups.lookup k).getD [], selectorSafe (idAt document r) = true := by
  intro r hr
  cases hl : groups.lookup k with
  | none => simp [hl] at hr
  | some radios =>
    rw [hl] at hr
    rcases groupRadios_mem document _ [] groups hg (k, radios) (lookup_mem groups k radios hl)
      r hr with h | ⟨g', hg', _⟩
    · exact hsafe r h
    · simp at hg'

/-- A round of the loop does not throw when `extractChoiceText` throws for no radio of the
group. -/
theorem processGroup_ne_none (querySelector : Str → QueryResult) (document : Node)
    (groups : RadioGroups) (st : ScanState) (k : Str)
    (h : ∀ r ∈ (groups.lookup k).getD [], ∀ T,
      extractChoiceText querySelector document r T ≠ none) :
    processGroup querySelector document groups st k ≠ none := by
  unfold processGroup
  simp only
  split_ifs
  · simp
  · simp
  · split
    · simp
    · split
      · simp
      · split_ifs
        · simp
        · simp
        · obtain ⟨cs, hcs⟩ := makeChoices_isSome querySelector document _ _
            (fun r hr => h r hr _)
          rw [hcs]
          simp only
          split_ifs <;> simp

theorem forEachGroup_isSome (querySelector : Str → QueryResult) (document : Node)
    (groups : RadioGroups) (ks : List Str)
    (h : ∀ k ∈ ks, ∀ st, processGroup querySelector document groups st k ≠ none)
    (st : ScanState) : ∃ st', forEachGroup querySelector document groups st ks = some st' := by
  induction ks generalizing st with
  | nil => exact ⟨st, rfl⟩
  | cons k ks ih =>
    cases hp : processGroup querySelector document groups st k with
    | none => exact absurd hp (h k (List.mem_cons_self _ _) st)
    | some st₁ =>
      obtain ⟨st', hst'⟩ := ih (fun k' hk' => h k' (List.mem_cons_of_mem _ hk')) st₁
      exact ⟨st', by simp [forEachGroup, hp, hst']⟩

/-- The function `findQuestions` returns when the grouping of the radios does not throw and
every radio has an id that a CSS string holds unchanged. -/
theorem findQuestions_returns (querySelector : Str → QueryResult) (toLowerCase : Str → Str)
    (document : Node) (groups : RadioGroups)
    (hg : groupRadios document [] (querySelectorAll document isRadio) = some groups)
    (hsafe : ∀ r ∈ querySelectorAll document isRadio, selectorSafe (idAt document r) = true) :
    ∃ qs, findQuestions querySelector toLowerCase document = some qs := by
  obtain ⟨st, hst⟩ := forEachGroup_isSome querySelector document groups (objectKeys groups)
    (fun k _ st => processGroup_ne_none querySelector document groups st k
      (fun r hr T => extractChoiceText_ne_none querySelector document r T
        (group_radios_safe document groups hg hsafe k r hr)))
    ⟨[], [], []⟩
  refine ⟨((querySelectorAll document isTextInput).foldl (processInput toLowerCase document)
    st).questions, ?_⟩
  simp only [findQuestions, hg, scanRadioGroups, hst]

theorem forEachGroup_append (querySelector : Str → QueryResult) (document : Node)
    (groups : RadioGroups) (a b : List Str) (st : ScanState) :
    forEachGroup querySelector document groups st (a ++ b)
      = (forEachGroup querySelector document groups st a).bind
          (fun st₁ => forEachGroup querySelector document groups st₁ b) := by
  induction a generalizing st with
  | nil => rfl
  | cons k a ih =>
    simp only [List.cons_append, forEachGroup]
    cases hp : processGroup querySelector document groups st k with
    | none => rfl
    | some st₁ => exact ih st₁

theorem processGroup_processed (querySelector : Str → QueryResult) (document : Node)
    (groups : RadioGroups) (st st' : ScanState) (k : Str)
    (h : processGroup querySelector document groups st k = some st') :
    ∀ x ∈ st'.processedRadioGroups, x = k ∨ x ∈ st.processedRadioGroups := by
  unfold processGroup at h
  simp only at h
  repeat' split at h
  all_goals first
    | (simp only [Option.some.injEq] at h
       subst h
       intro x hx
       first
         | exact Or.inr hx
         | exact List.mem_cons.mp hx)
    | exact Option.noConfusion h

theorem forEachGroup_processed (querySelector : Str → QueryResult) (document : Node)
    (groups : RadioGroups) (ks : List Str) (st st' : ScanState)
    (h : forEachGroup querySelector document groups st ks = some st') :
    ∀ x ∈ st'.processedRadioGroups, x ∈ ks ∨ x ∈ st.processedRadioGroups := by
  induction ks generalizing st with
  | nil =>
    simp only [forEachGroup, Option.some.injEq] at h
    subst h
    intro x hx; exact Or.inr hx
  | cons k ks ih =>
    obtain ⟨st₁, hp, hrest⟩ := forEachGroup_cons querySelector document groups st st' k ks h
    intro x hx
    rcases ih st₁ hrest x hx with h | h
    · exact Or.inl (List.mem_cons_of_mem _ h)
    · rcases processGroup_processed querySelector document groups st st₁ k hp x h with h | h
      · exact Or.inl (by simp [h])
      · exact Or.inr h

theorem filter_text_append_singleton (qs : List Question) (q : Question) (T : Str)
    (h : q.text ≠ T) :
    (qs ++ [q]).filter (fun q => decide (q.text = T)) = qs.filter (fun q => decide (q.text = T)) := by
  simp [List.filter_append, h]

/-- Groups that have fewer than 2 radios or whose question text is not `T` neither mark `T`
as seen nor push a question with the text `T`. -/
theorem forEachGroup_before (querySelector : Str → QueryResult) (document : Node)
    (groups : RadioGroups) (T : Str) (ks : List Str) (st st' : ScanState)
    (h : forEachGroup querySelector document groups st ks = some st')
    (hT : T ∉ st.seenQuestionTexts)
    (hks : ∀ k ∈ ks, 2 ≤ ((groups.lookup k).getD []).length →
      ∀ e, groupQuestionElement document groups k = some e → trimmedText document e ≠ T) :
    T ∉ st'.seenQuestionTexts ∧
    st'.questions.filter (fun q => decide (q.text = T))
      = st.questions.filter (fun q => decide (q.text = T)) := by
  induction ks generalizing st with
  | nil =>
    simp only [forEachGroup, Option.some.injEq] at h
    subst h
    exact ⟨hT, rfl⟩
  | cons k ks ih =>
    obtain ⟨st₁, hp, hrest⟩ := forEachGroup_cons querySelector document groups st st' k ks h
    have hks' : ∀ k ∈ ks, 2 ≤ ((groups.lookup k).getD []).length →
        ∀ e, groupQuestionElement document groups k = some e →
        trimmedText document e ≠ T := fun k' hk' => hks k' (List.mem_cons_of_mem _ hk')
    rcases processGroup_cases querySelector document groups st st₁ k hp with h | ⟨e, he, h2, _, hq, hs⟩ |
      ⟨e, cs, he, h2, _, _, _, _, hq, hs⟩
    · have := ih st₁ hrest (by rw [h.2]; exact hT) hks'
      rw [h.1] at this
      exact this
    · have hne := hks k (List.mem_cons_self _ _) h2 e he
      have := ih st₁ hrest (by rw [hs]; simp [hT, Ne.symm hne]) hks'
      rw [hq] at this
      exact this
    · have hne := hks k (List.mem_cons_self _ _) h2 e he
      have := ih st₁ hrest (by rw [hs]; simp [hT, Ne.symm hne]) hks'
      rw [hq, filter_text_append_singleton _ _ _ (by simpa [groupQuestion] using hne)] at this
      exact this

/-- Once `T` is seen, the loop over the radio groups pushes no question with the text
`T`. -/
theorem forEachGroup_after (querySelector : Str → QueryResult) (document : Node)
    (groups : RadioGroups) (T : Str) (ks : List Str) (st st' : ScanState)
    (h : forEachGroup querySelector document groups st ks = some st')
    (hT : T ∈ st.seenQuestionTexts) :
    T ∈ st'.seenQuestionTexts ∧
    st'.questions.filter (fun q => decide (q.text = T))
      = st.questions.filter (fun q => decide (q.text = T)) := by
  induction ks generalizing st with
  | nil =>
    simp only [forEachGroup, Option.some.injEq] at h
    subst h
    exact ⟨hT, rfl⟩
  | cons k ks ih =>
    obtain ⟨st₁, hp, hrest⟩ := forEachGroup_cons querySelector document groups st st' k ks h
    rcases processGroup_cases querySelector document groups st st₁ k hp with h | ⟨e, _, _, hn, hq, hs⟩ |
      ⟨e, cs, _, _, hn, _, _, _, hq, hs⟩
    · have := ih st₁ hrest (by rw [h.2]; exact hT)
      rw [h.1] at this
      exact this
    · have := ih st₁ hrest (by rw [hs]; exact List.mem_cons_of_mem _ hT)
      rw [hq] at this
      exact this
    · have hne : trimmedText document e ≠ T := fun heq => hn (heq ▸ hT)
      have := ih st₁ hrest (by rw [hs]; exact List.mem_cons_of_mem _ hT)
      rw [hq, filter_text_append_singleton _ _ _ (by simpa [groupQuestion] using hne)] at this
      exact this

/-- Once `T` is seen, the loop over the text inputs pushes no question with the text
`T`. -/
theorem foldl_processInput_after (toLowerCase : Str → Str) (document : Node) (T : Str)
    (inputs : List Handle) (st : ScanState) (hT : T ∈ st.seenQuestionTexts) :
    T ∈ (inputs.foldl (processInput toLowerCase document) st).seenQuestionTexts ∧
    (inputs.foldl (processInput toLowerCase document) st).questions.filter
        (fun q => decide (q.text = T))
      = st.questions.filter (fun q => decide (q.text = T)) := by
  induction inputs generalizing st with
  | nil => exact ⟨hT, rfl⟩
  | cons i inputs ih =>
    rw [List.foldl_cons]
    rcases processInput_cases toLowerCase document st i with h | ⟨e, _, _, hn, _, _, _, h⟩
    · rw [h]; exact ih st hT
    · have hne : trimmedText document e ≠ T := fun heq => hn (heq ▸ hT)
      have := ih (processInput toLowerCase document st i)
        (by rw [h]; exact List.mem_cons_of_mem _ hT)
      rw [h] at this
      simp only at this
      rw [filter_text_append_singleton _ _ _ (by simpa [inputQuestion] using hne)] at this
      rw [h]
      exact this

/-- The round of the loop for a group that passes every test pushes its question. -/
theorem processGroup_push (querySelector : Str → QueryResult) (document : Node)
    (groups : RadioGroups) (st : ScanState) (k : Str) (e : Handle) (cs : List Choice)
    (h2 : 2 ≤ ((groups.lookup k).getD []).length) (hk : k ∉ st.processedRadioGroups)
    (he : groupQuestionElement document groups k = some e)
    (hs : trimmedText document e ∉ st.seenQuestionTexts)
    (h10 : 10 ≤ jsLength (trimmedText document e))
    (h1000 : jsLength (trimmedText document e) ≤ 1000)
    (hm : makeChoices querySelector document (trimmedText document e)
      ((groups.lookup k).getD []) = some cs)
    (hv : ∃ c ∈ cs, c.text ≠ [] ∧ c.text ≠ "on".toList) :
    processGroup querySelector document groups st k
      = some { questions := st.questions ++
                [groupQuestion querySelector document ((groups.lookup k).getD []) e],
               seenQuestionTexts := trimmedText document e :: st.seenQuestionTexts,
               processedRadioGroups := k :: st.processedRadioGroups } := by
  have h1 : ¬ ((groups.lookup k).getD []).length < 2 := by omega
  obtain ⟨firstRadio, hh, hf⟩ : ∃ firstRadio, ((groups.lookup k).getD []).head? = some firstRadio
      ∧ findQuestionTextNear document firstRadio = some e := by
    unfold groupQuestionElement at he
    cases hh : ((groups.lookup k).getD []).head? with
    | none => simp [hh] at he
    | some firstRadio => exact ⟨firstRadio, rfl, by simpa [hh] using he⟩
  have h4 : ¬ (jsLength (trimmedText document e) < 10 ∨
      jsLength (trimmedText document e) > 1000) := by omega
  have h5 : ¬ (cs.all invalidChoice = true) := by
    obtain ⟨c, hc, hc1, hc2⟩ := hv
    intro hall
    rw [List.all_eq_true] at hall
    have := hall c hc
    simp only [invalidChoice, Bool.or_eq_true, beq_iff_eq] at this
    rcases this with (h | h) | h
    · exact hc1 h
    · exact hc2 h
    · exact hc1 h
  simp only [processGroup, if_neg h1, if_neg hk, hh, hf, if_neg hs, if_neg h4, hm, if_neg h5,
    groupQuestion, Option.getD_some]

theorem groupQuestion_injective_radios (querySelector : Str → QueryResult) (document : Node)
    (r₁ r₂ : List Handle) (e₁ e₂ : Handle) (cs₁ cs₂ : List Choice)
    (h₁ : makeChoices querySelector document (trimmedText document e₁) r₁ = some cs₁)
    (h₂ : makeChoices querySelector document (trimmedText document e₂) r₂ = some cs₂)
    (h : groupQuestion querySelector document r₁ e₁ = groupQuestion querySelector document r₂ e₂) :
    r₁ = r₂ := by
  have hc : cs₁ = cs₂ := by
    rw [← groupQuestion_choices querySelector document r₁ e₁ cs₁ h₁,
      ← groupQuestion_choices querySelector document r₂ e₂ cs₂ h₂, h]
  rw [← makeChoices_inputs querySelector document _ r₁ cs₁ h₁,
    ← makeChoices_inputs querySelector document _ r₂ cs₂ h₂, hc]

/-- C7, as the claim states it, fails: both groups of `digitSameTextPage` have two radios
and find their question text in the same paragraph; the group `"2"` comes first in the
document, and the one question returned is built from the radios of the group `"1"`, which
`Object.keys` lists first. -/
theorem same_text_second_group :
    querySelectorAll digitSameTextPage isRadio = [[1, 0], [2, 0], [3, 0], [4, 0]] ∧
    groupRadios digitSameTextPage [] (querySelectorAll digitSameTextPage isRadio)
      = some [("2".toList, [[1, 0], [2, 0]]), ("1".toList, [[3, 0], [4, 0]])] ∧
    groupQuestionElement digitSameTextPage
      [("2".toList, [[1, 0], [2, 0]]), ("1".toList, [[3, 0], [4, 0]])] "2".toList
      = some [0, 0] ∧
    groupQuestionElement digitSameTextPage
      [("2".toList, [[1, 0], [2, 0]]), ("1".toList, [[3, 0], [4, 0]])] "1".toList
      = some [0, 0] ∧
    findQuestions throwingQuerySelector asciiLower digitSameTextPage
      = some [groupQuestion throwingQuerySelector digitSameTextPage [[3, 0], [4, 0]] [0, 0]] ∧
    (groupQuestion throwingQuerySelector digitSameTextPage [[3, 0], [4, 0]] [0, 0]).choices.map
        (fun c => (c.inputElement, c.text))
      = [([3, 0], "Lyon".toList), ([4, 0], "Nice".toList)] := by
  decide

/-- C7 (amended): when the grouping of the radios does not throw, every radio has an id
that a CSS string holds unchanged, `g₁` is the first group in the order of `Object.keys`
that has at least 2 radios and whose question text is `T`, `T` has between 10 and 1000
code units and some radio of `g₁` has a choice text other than the empty string and `"on"`,
then `findQuestions` returns, and exactly one of its questions has the text `T`: the one
built from the radios of `g₁`; a later group with the same question text yields none. -/
theorem findQuestions_same_text (querySelector : Str → QueryResult) (toLowerCase : Str → Str)
    (document : Node) (groups : RadioGroups) (pre rest : List Str) (g₁ : Str) (e₁ : Handle)
    (hg : groupRadios document [] (querySelectorAll document isRadio) = some groups)
    (hsafe : ∀ r ∈ querySelectorAll document isRadio, selectorSafe (idAt document r) = true)
    (hks : objectKeys groups = pre ++ g₁ :: rest) (hg₁ : g₁ ∉ pre)
    (h2 : 2 ≤ ((groups.lookup g₁).getD []).length)
    (he₁ : groupQuestionElement document groups g₁ = some e₁)
    (hpre : ∀ k ∈ pre, 2 ≤ ((groups.lookup k).getD []).length →
      ∀ e, groupQuestionElement document groups k = some e →
      trimmedText document e ≠ trimmedText document e₁)
    (h10 : 10 ≤ jsLength (trimmedText document e₁))
    (h1000 : jsLength (trimmedText document e₁) ≤ 1000)
    (hv : ∃ r ∈ (groups.lookup g₁).getD [], ∃ t,
      extractChoiceText querySelector document r (trimmedText document e₁) = some t ∧
      t ≠ [] ∧ t ≠ "on".toList) :
    ∃ qs, findQuestions querySelector toLowerCase document = some qs ∧
      qs.filter (fun q => decide (q.text = trimmedText document e₁))
        = [groupQuestion querySelector document ((groups.lookup g₁).getD []) e₁] ∧
      (groupQuestion querySelector document ((groups.lookup g₁).getD []) e₁).choices.map
          (·.inputElement) = (groups.lookup g₁).getD [] ∧
      ∀ g₂ ∈ rest, ∀ e₂, groupQuestionElement document groups g₂ = some e₂ →
        trimmedText document e₂ = trimmedText document e₁ →
        (groups.lookup g₂).getD [] ≠ (groups.lookup g₁).getD [] →
        groupQuestion querySelector document ((groups.lookup g₂).getD []) e₂ ∉ qs := by
  have hext : ∀ k, ∀ r ∈ (groups.lookup k).getD [], ∀ T,
      extractChoiceText querySelector document r T ≠ none := fun k r hr T =>
    extractChoiceText_ne_none querySelector document r T
      (group_radios_safe document groups hg hsafe k r hr)
  have hnothrow : ∀ ks : List Str, ∀ k ∈ ks, ∀ st,
      processGroup querySelector document groups st k ≠ none := fun _ k _ st =>
    processGroup_ne_none querySelector document groups st k (hext k)
  obtain ⟨stPre, hstPre⟩ := forEachGroup_isSome querySelector document groups pre
    (hnothrow pre) ⟨[], [], []⟩
  have hbefore := forEachGroup_before querySelector document groups (trimmedText document e₁)
    pre ⟨[], [], []⟩ stPre hstPre (by simp) hpre
  have hproc : g₁ ∉ stPre.processedRadioGroups := by
    intro hmem
    rcases forEachGroup_processed querySelector document groups pre _ stPre hstPre g₁ hmem
      with h | h
    · exact hg₁ h
    · simp at h
  obtain ⟨cs₁, hcs₁⟩ := makeChoices_isSome querySelector document (trimmedText document e₁)
    ((groups.lookup g₁).getD []) (fun r hr => hext g₁ r hr _)
  have hv' : ∃ c ∈ cs₁, c.text ≠ [] ∧ c.text ≠ "on".toList := by
    obtain ⟨r, hr, t, ht, ht1, ht2⟩ := hv
    have hmem : some t ∈ cs₁.map (fun c => some c.text) := by
      rw [← makeChoices_texts querySelector document _ _ cs₁ hcs₁, ← ht]
      exact List.mem_map.mpr ⟨r, hr, rfl⟩
    obtain ⟨c, hc, hct⟩ := List.mem_map.mp hmem
    have hct' : c.text = t := by simpa using hct
    exact ⟨c, hc, by rw [hct']; exact ht1, by rw [hct']; exact ht2⟩
  have hstep := processGroup_push querySelector document groups stPre g₁ e₁ cs₁ h2 hproc he₁
    hbefore.1 h10 h1000 hcs₁ hv'
  obtain ⟨stRest, hstRest⟩ := forEachGroup_isSome querySelector document groups rest
    (hnothrow rest)
    { questions := stPre.questions ++
        [groupQuestion querySelector document ((groups.lookup g₁).getD []) e₁],
      seenQuestionTexts := trimmedText document e₁ :: stPre.seenQuestionTexts,
      processedRadioGroups := g₁ :: stPre.processedRadioGroups }
  have hafter := forEachGroup_after querySelector document groups (trimmedText document e₁)
    rest _ stRest hstRest (by simp)
  have hscan : scanRadioGroups querySelector document groups = some stRest := by
    rw [scanRadioGroups, hks, forEachGroup_append, hstPre, Option.some_bind, forEachGroup,
      hstep]
    exact hstRest
  have hinputs := foldl_processInput_after toLowerCase document (trimmedText document e₁)
    (querySelectorAll document isTextInput) stRest hafter.1
  have hfilter : ((querySelectorAll document isTextInput).foldl
      (processInput toLowerCase document) stRest).questions.filter
        (fun q => decide (q.text = trimmedText document e₁))
      = [groupQuestion querySelector document ((groups.lookup g₁).getD []) e₁] := by
    rw [hinputs.2, hafter.2]
    simp only [List.filter_append, hbefore.2]
    simp [groupQuestion]
  refine ⟨_, by simp only [findQuestions, hg, hscan], hfilter, ?_, ?_⟩
  · rw [groupQuestion_choices querySelector document _ e₁ cs₁ hcs₁]
    exact makeChoices_inputs querySelector document _ _ cs₁ hcs₁
  · intro g₂ _ e₂ _ hT hne hmem
    have hmem' : groupQuestion querySelector document ((groups.lookup g₂).getD []) e₂ ∈
        ((querySelectorAll document isTextInput).foldl
          (processInput toLowerCase document) stRest).questions.filter
          (fun q => decide (q.text = trimmedText document e₁)) := by
      rw [List.mem_filter]
      exact ⟨hmem, by simpa [groupQuestion] using hT⟩
    rw [hfilter, List.mem_singleton] at hmem'
    obtain ⟨cs₂, hcs₂⟩ := makeChoices_isSome querySelector document (trimmedText document e₂)
      ((groups.lookup g₂).getD []) (fun r hr => hext g₂ r hr _)
    exact hne (groupQuestion_injective_radios querySelector document _ _ _ _ cs₂ cs₁ hcs₂ hcs₁
      hmem')

/-- C7 (amended) at `sameTextValuesPage`: both groups find their question text in the same
paragraph, and the one question returned is that of the group `a`. -/
theorem findQuestions_same_text_witness :
    ∃ qs, findQuestions throwingQuerySelector asciiLower sameTextValuesPage = some qs ∧
      qs.filter (fun q => decide (q.text = trimmedText sameTextValuesPage [0, 0]))
        = [groupQuestion throwingQuerySelector sameTextValuesPage [[1, 0], [2, 0]] [0, 0]] ∧
      (groupQuestion throwingQuerySelector sameTextValuesPage [[1, 0], [2, 0]]
          [0, 0]).choices.map (·.inputElement) = [[1, 0], [2, 0]] ∧
      ∀ g₂ ∈ ["b".toList], ∀ e₂,
        groupQuestionElement sameTextValuesPage
          [("a".toList, [[1, 0], [2, 0]]), ("b".toList, [[3, 0], [4, 0]])] g₂ = some e₂ →
        trimmedText sameTextValuesPage e₂ = trimmedText sameTextValuesPage [0, 0] →
        ([("a".toList, [[1, 0], [2, 0]]), ("b".toList, [[3, 0], [4, 0]])].lookup g₂).getD []
          ≠ [[1, 0], [2, 0]] →
        groupQuestion throwingQuerySelector sameTextValuesPage
          (([("a".toList, [[1, 0], [2, 0]]), ("b".toList, [[3, 0], [4, 0]])].lookup g₂).getD [])
          e₂ ∉ qs :=
  findQuestions_same_text throwingQuerySelector asciiLower sameTextValuesPage
    [("a".toList, [[1, 0], [2, 0]]), ("b".toList, [[3, 0], [4, 0]])] [] ["b".toList]
    "a".toList [0, 0] (by decide) (by decide) (by decide) (by decide) (by decide) (by decide)
    (by decide) (by decide) (by decide) ⟨[1, 0], by decide, "Paris".toList, by decide, by decide,
      by decide⟩
/-! ## C12: the sibling step of findQuestionTextNear -/

/-- The loop of Method 2 returns the nearest of the preceding element siblings it visits
that passes its test. -/
theorem searchSiblings_eq_find (document : Node) (n : Nat) (sibling : Option Handle) :
    searchSiblings document n sibling
      = (precedingElementSiblings document n sibling).find?
          (fun s => siblingLooksLikeQuestion (trimmedText document s)) := by
  induction n generalizing sibling with
  | zero => rfl
  | succ n ih =>
    cases sibling with
    | none => rfl
    | some s =>
      simp only [searchSiblings, precedingElementSiblings, List.find?_cons]
      cases h : siblingLooksLikeQuestion (trimmedText document s) with
      | true => simp
      | false => simpa using ih _

theorem length_precedingElementSiblings (document : Node) (n : Nat) (sibling : Option Handle) :
    (precedingElementSiblings document n sibling).length ≤ n := by
  induction n generalizing sibling with
  | zero => simp [precedingElementSiblings]
  | succ n ih =>
    cases sibling with
    | none => simp [precedingElementSiblings]
    | some s =>
      simp only [precedingElementSiblings, List.length_cons]
      exact Nat.succ_le_succ (ih _)

/-- The test of Method 2, spelled out. -/
theorem siblingLooksLikeQuestion_iff (text : Str) :
    siblingLooksLikeQuestion text = true ↔
      10 < jsLength text ∧ jsLength text < 1000 ∧
      (includes text "?".toList = true ∨ startsEnumerated text = true ∨
        startsUpper text = true ∨ includes text "Question".toList = true) := by
  simp only [siblingLooksLikeQuestion, Bool.and_eq_true, Bool.or_eq_true, decide_eq_true_eq,
    gt_iff_lt]
  tauto

/-- C12: for an input that no label with more than 10 code units of trimmed text wraps,
`findQuestionTextNear` returns the nearest of the first 10 preceding element siblings whose
trimmed text has more than 10 and fewer than 1000 code units and contains `?`, or starts
with digits followed by one of `).:`, or starts with an upper-case ASCII letter, or
contains `Question`, when there is one; and what the sibling step returns is always one of
these first 10 siblings, of which there are at most 10. -/
theorem findQuestionTextNear_sibling (document : Node) (inputElement : Handle)
    (hlabel : ∀ label, closestLabel document inputElement = some label →
      jsLength (trimmedText document label) ≤ 10) :
    (∀ pre s post,
      precedingElementSiblings document 10 (previousElementSibling document inputElement)
        = pre ++ s :: post →
      (∀ x ∈ pre, ¬ (10 < jsLength (trimmedText document x) ∧
        jsLength (trimmedText document x) < 1000 ∧
        (includes (trimmedText document x) "?".toList = true ∨
          startsEnumerated (trimmedText document x) = true ∨
          startsUpper (trimmedText document x) = true ∨
          includes (trimmedText document x) "Question".toList = true))) →
      (10 < jsLength (trimmedText document s) ∧ jsLength (trimmedText document s) < 1000 ∧
        (includes (trimmedText document s) "?".toList = true ∨
          startsEnumerated (trimmedText document s) = true ∨
          startsUpper (trimmedText document s) = true ∨
          includes (trimmedText document s) "Question".toList = true)) →
      findQuestionTextNear document inputElement = some s) ∧
    (∀ r, searchSiblings document 10 (previousElementSibling document inputElement) = some r →
      r ∈ precedingElementSiblings document 10
        (previousElementSibling document inputElement)) ∧
    (precedingElementSiblings document 10
      (previousElementSibling document inputElement)).length ≤ 10 := by
  refine ⟨?_, ?_, length_precedingElementSiblings _ _ _⟩
  · intro pre s post hsplit hpre hs
    have h1 : (closestLabel document inputElement).filter
        (fun label => decide (jsLength (trimmedText document label) > 10)) = none := by
      cases hl : closestLabel document inputElement with
      | none => rfl
      | some label =>
        have := hlabel label hl
        simp only [Option.filter]
        rw [if_neg]
        simp only [gt_iff_lt, decide_eq_true_eq]
        omega
    have h2 : searchSiblings document 10 (previousElementSibling document inputElement)
        = some s := by
      rw [searchSiblings_eq_find, hsplit, List.find?_append]
      have hnone : pre.find? (fun s => siblingLooksLikeQuestion (trimmedText document s))
          = none := by
        rw [List.find?_eq_none]
        intro x hx hacc
        exact hpre x hx ((siblingLooksLikeQuestion_iff _).mp hacc)
      rw [hnone, Option.none_or]
      exact List.find?_cons_of_pos _ ((siblingLooksLikeQuestion_iff _).mpr hs)
    simp only [findQuestionTextNear, h1, h2]
  · intro r hr
    rw [searchSiblings_eq_find] at hr
    exact List.mem_of_find?_eq_some hr

/-- C12 at the first radio of the second group of `sameTextPage`: its two nearest preceding
element siblings are radios without text, the third is the paragraph of the question. -/
theorem findQuestionTextNear_sibling_witness :
    findQuestionTextNear sameTextPage [3, 0] = some [0, 0] :=
  (findQuestionTextNear_sibling sameTextPage [3, 0] (by decide)).1
    [[2, 0], [1, 0]] [0, 0] [] (by decide) (by decide) (by decide)


/-! ## C11: the end-to-end scenario -/

/-- C11, as the claim states it, fails: with the text `2+2=?`, which has 5 code units,
`findQuestions` returns no question for the page of the scenario. -/
theorem arithmetic_short_text :
    jsLength "2+2=?".toList = 5 ∧
    findQuestionTextNear (arithmeticPage "2+2=?".toList) [0, 1, 0] = none ∧
    findQuestions throwingQuerySelector asciiLower (arithmeticPage "2+2=?".toList)
      = some [] := by
  decide

theorem trimmedText_arithmeticPage (T : Str) :
    trimmedText (arithmeticPage T) [0, 0] = trim T := by
  simp [trimmedText, nodeAt, arithmeticPage, page, Node.childNodes, Node.textContent,
    Node.descendantText, descendantTextList]

theorem findQuestionTextNear_arithmeticPage (T : Str) (h10 : 10 < jsLength (trim T))
    (h1000 : jsLength (trim T) < 1000) (hq : includes (trim T) "?".toList = true) :
    findQuestionTextNear (arithmeticPage T) [0, 1, 0] = some [0, 0] := by
  have hb : blockLooksLikeQuestion (trimmedText (arithmeticPage T) [0, 0]) = true := by
    rw [trimmedText_arithmeticPage]
    simp only [blockLooksLikeQuestion, Bool.and_eq_true, Bool.or_eq_true, decide_eq_true_eq]
    exact ⟨⟨h10, h1000⟩, Or.inl (Or.inl hq)⟩
  have h1 : (closestLabel (arithmeticPage T) [0, 1, 0]).filter
      (fun label => decide (jsLength (trimmedText (arithmeticPage T) label) > 10)) = none := rfl
  have h2 : searchSiblings (arithmeticPage T) 10
      (previousElementSibling (arithmeticPage T) [0, 1, 0]) = none := rfl
  have h3 : parentElement [0, 1, 0] = some [1, 0] := rfl
  have h4 : previousElementSibling (arithmeticPage T) [1, 0] = some [0, 0] := rfl
  simp only [findQuestionTextNear, h1, h2, h3, searchAncestors, h4, searchParentSiblings, hb,
    if_true]

/-- C11 (amended): for the page with the radio group `q1` and the options `4`, `5`, `6`
after an element whose trimmed text `T` contains `?` and has more than 10 and fewer than
1000 code units, `findQuestions` returns one question, a multiple-choice question with the
text `T` and the three choices; reconciling the completion
`"Answer: 4\nExplanation: 4 because 2+2=4"` with it highlights the choice `4`, records the
explanation `4 because 2+2=4` and reports no error. -/
theorem findQuestions_arithmetic (querySelector : Str → QueryResult)
    (toLowerCase : Str → Str) (T : Str)
    (h10 : 10 < jsLength (trim T)) (h1000 : jsLength (trim T) < 1000)
    (hq : includes (trim T) "?".toList = true) :
    findQuestions querySelector toLowerCase (arithmeticPage T)
      = some [arithmeticQuestion (trim T)] ∧
    analyzeQuestion toLowerCase (arithmeticQuestion (trim T)) arithmeticCompletion
      = [.highlightChoice ⟨some [1, 0], "4".toList, [0, 1, 0]⟩,
         .addExplanation [0, 0] "4 because 2+2=4".toList] ∧
    ∀ e m, Effect.addError e m ∉
      analyzeQuestion toLowerCase (arithmeticQuestion (trim T)) arithmeticCompletion := by
  have hA : analyzeQuestion toLowerCase (arithmeticQuestion (trim T)) arithmeticCompletion
      = [.highlightChoice ⟨some [1, 0], "4".toList, [0, 1, 0]⟩,
         .addExplanation [0, 0] "4 because 2+2=4".toList] := by
    have h := analyzeQuestion_of_answer toLowerCase (arithmeticQuestion (trim T))
      arithmeticCompletion "4".toList (by simp [arithmeticQuestion]) (by decide) (by decide)
    have hsel : selectedChoice toLowerCase (arithmeticQuestion (trim T)).choices
        (trim "4".toList) = some ⟨some [1, 0], "4".toList, [0, 1, 0]⟩ := rfl
    have hexp : explanationMatch (trim (completionText arithmeticCompletion))
        = some "4 because 2+2=4".toList := by decide
    have htrim : trim "4 because 2+2=4".toList = "4 because 2+2=4".toList := by decide
    rw [h, hsel, hexp]
    simp only [htrim]
    rfl
  refine ⟨?_, hA, ?_⟩
  · have hg : groupRadios (arithmeticPage T) [] (querySelectorAll (arithmeticPage T) isRadio)
        = some [("q1".toList, [[0, 1, 0], [0, 2, 0], [0, 3, 0]])] := rfl
    have hkeys : objectKeys [("q1".toList, [[0, 1, 0], [0, 2, 0], [0, 3, 0]])]
        = ["q1".toList] := by decide
    have he : groupQuestionElement (arithmeticPage T)
        [("q1".toList, [[0, 1, 0], [0, 2, 0], [0, 3, 0]])] "q1".toList = some [0, 0] := by
      have hhead : (([("q1".toList, [[0, 1, 0], [0, 2, 0], [0, 3, 0]])].lookup
          "q1".toList).getD []).head? = some [0, 1, 0] := by decide
      rw [groupQuestionElement, hhead, Option.some_bind]
      exact findQuestionTextNear_arithmeticPage T h10 h1000 hq
    have hl : ([("q1".toList, [[0, 1, 0], [0, 2, 0], [0, 3, 0]])].lookup "q1".toList).getD []
        = [[0, 1, 0], [0, 2, 0], [0, 3, 0]] := by decide
    have hm : makeChoices querySelector (arithmeticPage T) (trimmedText (arithmeticPage T) [0, 0])
        (([("q1".toList, [[0, 1, 0], [0, 2, 0], [0, 3, 0]])].lookup "q1".toList).getD [])
        = some (arithmeticQuestion (trim T)).choices := by
      rw [hl]
      rfl
    have hpush := processGroup_push querySelector (arithmeticPage T)
      [("q1".toList, [[0, 1, 0], [0, 2, 0], [0, 3, 0]])] ⟨[], [], []⟩ "q1".toList [0, 0]
      (arithmeticQuestion (trim T)).choices
      (by decide) (by simp) he (by simp)
      (by rw [trimmedText_arithmeticPage]; omega)
      (by rw [trimmedText_arithmeticPage]; omega) hm
      ⟨⟨some [1, 0], "4".toList, [0, 1, 0]⟩, by simp [arithmeticQuestion], by decide,
        by decide⟩
    have hq1 : groupQuestion querySelector (arithmeticPage T)
        (([("q1".toList, [[0, 1, 0], [0, 2, 0], [0, 3, 0]])].lookup "q1".toList).getD [])
        [0, 0] = arithmeticQuestion (trim T) := by
      rw [groupQuestion, hm, trimmedText_arithmeticPage]
      rfl
    have hinputs : querySelectorAll (arithmeticPage T) isTextInput = [] := rfl
    simp only [findQuestions, hg, scanRadioGroups, hkeys, forEachGroup, hpush, hq1, hinputs,
      List.foldl_nil, List.nil_append]
  · intro e m hm
    rw [hA] at hm
    simp at hm

/-- C11 (amended) at the text `What is 2+2=?`. -/
theorem findQuestions_arithmetic_witness :
    findQuestions throwingQuerySelector asciiLower (arithmeticPage "What is 2+2=?".toList)
      = some [arithmeticQuestion "What is 2+2=?".toList] ∧
    analyzeQuestion asciiLower (arithmeticQuestion "What is 2+2=?".toList) arithmeticCompletion
      = [.highlightChoice ⟨some [1, 0], "4".toList, [0, 1, 0]⟩,
         .addExplanation [0, 0] "4 because 2+2=4".toList] :=
  ⟨(findQuestions_arithmetic throwingQuerySelector asciiLower "What is 2+2=?".toList
      (by decide) (by decide) (by decide)).1,
   (findQuestions_arithmetic throwingQuerySelector asciiLower "What is 2+2=?".toList
      (by decide) (by decide) (by decide)).2.1⟩

/-- No question `findQuestions` returns has a text of fewer than 10 code units. -/
theorem findQuestions_text_length (querySelector : Str → QueryResult)
    (toLowerCase : Str → Str) (document : Node)
    (qs : List Question) (h : findQuestions querySelector toLowerCase document = some qs) :
    ∀ q ∈ qs, 10 ≤ jsLength q.text := by
  refine findQuestions_forall (fun q => 10 ≤ jsLength q.text) querySelector toLowerCase
    document ?_ ?_ qs h
  · intro radios e cs _ h10 _ _
    exact h10
  · intro input e _ h15 _
    exact Nat.le_trans (by decide) h15

/-! ## C13: a choice with an empty label -/

theorem includes_nil (s : Str) : includes s [] = true := by
  cases s with
  | nil => rfl
  | cons c s => simp [includes, List.isPrefixOf]

/-- The round of the loop for a group that passes every test but the one on its choices
pushes no question. -/
theorem processGroup_reject (querySelector : Str → QueryResult) (document : Node)
    (groups : RadioGroups) (st : ScanState) (k : Str) (e : Handle) (cs : List Choice)
    (h2 : 2 ≤ ((groups.lookup k).getD []).length) (hk : k ∉ st.processedRadioGroups)
    (he : groupQuestionElement document groups k = some e)
    (hs : trimmedText document e ∉ st.seenQuestionTexts)
    (h10 : 10 ≤ jsLength (trimmedText document e))
    (h1000 : jsLength (trimmedText document e) ≤ 1000)
    (hm : makeChoices querySelector document (trimmedText document e)
      ((groups.lookup k).getD []) = some cs)
    (hv : ∀ c ∈ cs, c.text = [] ∨ c.text = "on".toList) :
    processGroup querySelector document groups st k
      = some { questions := st.questions,
               seenQuestionTexts := trimmedText document e :: st.seenQuestionTexts,
               processedRadioGroups := k :: st.processedRadioGroups } := by
  have h1 : ¬ ((groups.lookup k).getD []).length < 2 := by omega
  obtain ⟨firstRadio, hh, hf⟩ : ∃ firstRadio, ((groups.lookup k).getD []).head? = some firstRadio
      ∧ findQuestionTextNear document firstRadio = some e := by
    unfold groupQuestionElement at he
    cases hh : ((groups.lookup k).getD []).head? with
    | none => simp [hh] at he
    | some firstRadio => exact ⟨firstRadio, rfl, by simpa [hh] using he⟩
  have h4 : ¬ (jsLength (trimmedText document e) < 10 ∨
      jsLength (trimmedText document e) > 1000) := by omega
  have h5 : cs.all invalidChoice = true := by
    rw [List.all_eq_true]
    intro c hc
    simp only [invalidChoice, Bool.or_eq_true, beq_iff_eq]
    rcases hv c hc with h | h
    · exact Or.inl (Or.inl h)
    · exact Or.inl (Or.inr h)
  simp only [processGroup, if_neg h1, if_neg hk, hh, hf, if_neg hs, if_neg h4, hm, h5, if_true]

/-- C13: when some choice of a multiple-choice question has a blank label, the empty string
lower-cases to itself and an answer text is extracted from the completion,
`analyzeQuestion` highlights one of the choices and reports no unmatched answer; when no
trimmed label is the answer, the choice highlighted is the first, in order, whose label is
blank or is in the containment relation with the answer; every string includes the empty
string. For a radio group that passes the other tests of `findQuestions` and for none of
whose radios `extractChoiceText` throws, the round of the loop returns, and it pushes the
question of the group exactly when not every choice text is empty or `"on"`; the group of
`emptyValuePage`, whose first choice text is empty, has its question returned. -/
theorem analyzeQuestion_empty_label :
    (∀ (toLowerCase : Str → Str) (q : Question) (data : Completion) (g : Str) (c₀ : Choice),
      toLowerCase [] = [] → c₀ ∈ q.choices → trim c₀.text = [] →
      answerMatch (trim (completionText data)) = some g →
      (∃ c e, c ∈ q.choices ∧ analyzeQuestion toLowerCase q data
        = [.highlightChoice c, .addExplanation q.element e]) ∧
      (∀ el a, Effect.addError el (unmatchedAnswerMessage a) ∉
        analyzeQuestion toLowerCase q data) ∧
      (∀ pre c post, q.choices = pre ++ c :: post →
        (∀ d ∈ q.choices, trim d.text ≠ trim g) →
        (∀ d ∈ pre, trim d.text ≠ [] ∧
          ¬ (includes (toLowerCase (trim d.text)) (toLowerCase (trim g)) = true ∨
            includes (toLowerCase (trim g)) (toLowerCase (trim d.text)) = true)) →
        (trim c.text = [] ∨
          includes (toLowerCase (trim c.text)) (toLowerCase (trim g)) = true ∨
          includes (toLowerCase (trim g)) (toLowerCase (trim c.text)) = true) →
        ∃ e, analyzeQuestion toLowerCase q data
          = [.highlightChoice c, .addExplanation q.element e])) ∧
    (∀ s : Str, includes s [] = true) ∧
    (∀ (querySelector : Str → QueryResult) (document : Node) (groups : RadioGroups)
      (st : ScanState) (k : Str) (e : Handle),
      2 ≤ ((groups.lookup k).getD []).length → k ∉ st.processedRadioGroups →
      groupQuestionElement document groups k = some e →
      trimmedText document e ∉ st.seenQuestionTexts →
      10 ≤ jsLength (trimmedText document e) → jsLength (trimmedText document e) ≤ 1000 →
      (∀ r ∈ (groups.lookup k).getD [],
        extractChoiceText querySelector document r (trimmedText document e) ≠ none) →
      ∃ st', processGroup querySelector document groups st k = some st' ∧
        (st'.questions = st.questions ++
            [groupQuestion querySelector document ((groups.lookup k).getD []) e] ↔
          ¬ ∀ r ∈ (groups.lookup k).getD [],
            extractChoiceText querySelector document r (trimmedText document e) = some [] ∨
            extractChoiceText querySelector document r (trimmedText document e)
              = some "on".toList)) ∧
    (findQuestions throwingQuerySelector asciiLower emptyValuePage
        = some [groupQuestion throwingQuerySelector emptyValuePage [[1, 0], [2, 0]] [0, 0]] ∧
      (groupQuestion throwingQuerySelector emptyValuePage [[1, 0], [2, 0]]
          [0, 0]).choices.map (·.text)
        = [[], "Mars".toList]) := by
  refine ⟨?_, includes_nil, ?_, by decide⟩
  · intro toLowerCase q data g c₀ hlow hc₀ hblank hg
    have hr : trim (completionText data) ≠ [] := by
      intro h0
      rw [h0] at hg
      have hnone : answerMatch [] = none := rfl
      rw [hnone] at hg
      exact Option.noConfusion hg
    have hq : q.choices ≠ [] := List.ne_nil_of_mem hc₀
    have hA := analyzeQuestion_of_answer toLowerCase q data g hq hr hg
    have hrel : ∀ c : Choice, trim c.text = [] →
        (includes (toLowerCase (trim c.text)) (toLowerCase (trim g)) = true ∨
          includes (toLowerCase (trim g)) (toLowerCase (trim c.text)) = true) := by
      intro c hc
      right
      rw [hc, hlow]
      exact includes_nil _
    have hsome : ∃ c, c ∈ q.choices ∧
        selectedChoice toLowerCase q.choices (trim g) = some c := by
      unfold selectedChoice
      cases hex : exactMatch q.choices (trim g) with
      | some c => exact ⟨c, List.mem_of_find?_eq_some hex, rfl⟩
      | none =>
        cases hpm : partialMatch toLowerCase q.choices (trim g) with
        | some c => exact ⟨c, List.mem_of_find?_eq_some hpm, rfl⟩
        | none =>
          exfalso
          rw [partialMatch, List.find?_eq_none] at hpm
          have := hpm c₀ hc₀
          rcases hrel c₀ hblank with h | h
          · simp [h] at this
          · simp [h] at this
    obtain ⟨c, hc, hsel⟩ := hsome
    have hA' : analyzeQuestion toLowerCase q data = [.highlightChoice c,
        .addExplanation q.element
          (match explanationMatch (trim (completionText data)) with
           | some e => trim e
           | none => trim g ++ " because it is the correct answer.".toList)] := by
      rw [hA, hsel]
    refine ⟨⟨c, _, hc, hA'⟩, ?_, ?_⟩
    · intro el a hm
      rw [hA'] at hm
      simp at hm
    · intro pre c' post hsplit hno hpre hc'
      have hc'' : includes (toLowerCase (trim c'.text)) (toLowerCase (trim g)) = true ∨
          includes (toLowerCase (trim g)) (toLowerCase (trim c'.text)) = true := by
        rcases hc' with h | h
        · exact hrel c' h
        · exact h
      rw [hA, selectedChoice, exactMatch_eq_none _ _ hno, hsplit,
        partialMatch_first toLowerCase pre post c' _ (fun d hd => (hpre d hd).2) hc'']
      exact ⟨_, rfl⟩
  · intro querySelector document groups st k e h2 hk he hs h10 h1000 hthrow
    obtain ⟨cs, hcs⟩ := makeChoices_isSome querySelector document (trimmedText document e)
      ((groups.lookup k).getD []) hthrow
    have htexts := makeChoices_texts querySelector document _ _ cs hcs
    have hiff : (∀ r ∈ (groups.lookup k).getD [],
          extractChoiceText querySelector document r (trimmedText document e) = some [] ∨
          extractChoiceText querySelector document r (trimmedText document e)
            = some "on".toList) ↔
        ∀ c ∈ cs, c.text = [] ∨ c.text = "on".toList := by
      constructor
      · intro hall c hc
        have hmem : some c.text ∈ ((groups.lookup k).getD []).map
            (extractChoiceText querySelector document · (trimmedText document e)) := by
          rw [htexts]
          exact List.mem_map.mpr ⟨c, hc, rfl⟩
        obtain ⟨r, hr, hrt⟩ := List.mem_map.mp hmem
        rcases hall r hr with h | h
        · rw [hrt] at h
          exact Or.inl (Option.some.inj h)
        · rw [hrt] at h
          exact Or.inr (Option.some.inj h)
      · intro hall r hr
        have hmem : extractChoiceText querySelector document r (trimmedText document e) ∈
            cs.map (fun c => some c.text) := by
          rw [← htexts]
          exact List.mem_map.mpr ⟨r, hr, rfl⟩
        obtain ⟨c, hc, hct⟩ := List.mem_map.mp hmem
        rw [← hct]
        rcases hall c hc with h | h
        · exact Or.inl (congrArg some h)
        · exact Or.inr (congrArg some h)
    by_cases hall : ∀ c ∈ cs, c.text = [] ∨ c.text = "on".toList
    · refine ⟨_, processGroup_reject querySelector document groups st k e cs h2 hk he hs h10
        h1000 hcs hall, ?_⟩
      constructor
      · intro hpush
        have hlen := congrArg List.length hpush
        simp at hlen
      · intro hnot
        exact absurd (hiff.mpr hall) hnot
    · have hv : ∃ c ∈ cs, c.text ≠ [] ∧ c.text ≠ "on".toList := by
        by_contra hcon
        apply hall
        intro c hc
        by_contra hor
        exact hcon ⟨c, hc, fun h => hor (Or.inl h), fun h => hor (Or.inr h)⟩
      refine ⟨_, processGroup_push querySelector document groups st k e cs h2 hk he hs h10
        h1000 hcs hv, ?_⟩
      constructor
      · intro _ hnot
        exact hall (hiff.mp hnot)
      · intro _
        rfl

/-- C13 at the question of `emptyValuePage` and the completion `Answer: Venus`: the choice
with the empty label is highlighted. -/
theorem analyzeQuestion_empty_label_witness :
    ∃ e, analyzeQuestion asciiLower
        (groupQuestion throwingQuerySelector emptyValuePage [[1, 0], [2, 0]] [0, 0])
        ⟨some "Answer: Venus".toList, none⟩
      = [.highlightChoice ⟨some [0], [], [1, 0]⟩, .addExplanation [0, 0] e] :=
  (analyzeQuestion_empty_label.1 asciiLower
    (groupQuestion throwingQuerySelector emptyValuePage [[1, 0], [2, 0]] [0, 0])
    ⟨some "Answer: Venus".toList, none⟩ "Venus".toList ⟨some [0], [], [1, 0]⟩
    (by decide) (by decide) (by decide) (by decide)).2.2
    [] ⟨some [0], [], [1, 0]⟩ [⟨some [0], "Mars".toList, [2, 0]⟩]
    (by decide) (by decide) (by decide) (Or.inl (by decide))

end AIQuestionHelper
